import Mathlib

/-!
Verification of the gotrue-js token-lifecycle core (`src/user.ts`) against its
specification.  The JavaScript source is shallowly embedded: JS numbers that
matter to the logic are modelled as integers (`Int`), the special values
`undefined` and `NaN` that flow through `expires_at` are modelled explicitly
by the `ExpVal` type, fallible platform primitives (`atob`, `JSON.parse`)
are modelled as `Option`/`Except`-valued functions, and the process-wide
mutable state (`localStorage`, `currentUser`, `refreshPromises`) is a
`SysState` record threaded explicitly.  Fractional JS numbers never reach the
modelled logic (JWT `exp` claims and millisecond instants are integral), so
the JSON number model is integral.  Platform error messages (`atob`,
`JSON.parse`) are modelled as input-independent constant strings, which is
the property the code relies on for not leaking token material into logs.
-/

namespace GoTrueJS

/-- Model of a JS number-ish value as it appears in `expires_at`:
`undefined` (field never set), `NaN` (result of arithmetic on non-numbers),
or an integral number. -/
inductive ExpVal where
  | undef
  | nan
  | val (n : Int)
deriving Repr, DecidableEq

/-- JSON values as produced by `JSON.parse` (numbers restricted to integers). -/
inductive JValue where
  | null
  | bool (b : Bool)
  | num (n : Int)
  | str (s : String)
  | arr (elems : List JValue)
  | obj (fields : List (String × JValue))
deriving Repr, Inhabited

/-! ### JSON parser (model of `JSON.parse`) -/

def isWsChar (c : Char) : Bool :=
  decide (c = ' ' ∨ c = '\t' ∨ c = '\n' ∨ c = '\r')

def skipWs : List Char → List Char
  | [] => []
  | c :: rest => if isWsChar c then skipWs rest else c :: rest

def hexVal (c : Char) : Option Nat :=
  if '0' ≤ c ∧ c ≤ '9' then some (c.toNat - 48)
  else if 'a' ≤ c ∧ c ≤ 'f' then some (c.toNat - 97 + 10)
  else if 'A' ≤ c ∧ c ≤ 'F' then some (c.toNat - 65 + 10)
  else none

/-- Parse the body of a JSON string literal (after the opening quote). -/
def parseStringBody : Nat → List Char → Option (String × List Char)
  | 0, _ => none
  | _, [] => none
  | fuel+1, c :: rest =>
    if c = '"' then some ("", rest)
    else if c = '\\' then
      match rest with
      | [] => none
      | e :: rest2 =>
        if e = '"' then (parseStringBody fuel rest2).map (fun pr => (String.mk ('"' :: pr.1.data), pr.2))
        else if e = '\\' then (parseStringBody fuel rest2).map (fun pr => (String.mk ('\\' :: pr.1.data), pr.2))
        else if e = '/' then (parseStringBody fuel rest2).map (fun pr => (String.mk ('/' :: pr.1.data), pr.2))
        else if e = 'b' then (parseStringBody fuel rest2).map (fun pr => (String.mk ('\x08' :: pr.1.data), pr.2))
        else if e = 'f' then (parseStringBody fuel rest2).map (fun pr => (String.mk ('\x0c' :: pr.1.data), pr.2))
        else if e = 'n' then (parseStringBody fuel rest2).map (fun pr => (String.mk ('\n' :: pr.1.data), pr.2))
        else if e = 'r' then (parseStringBody fuel rest2).map (fun pr => (String.mk ('\r' :: pr.1.data), pr.2))
        else if e = 't' then (parseStringBody fuel rest2).map (fun pr => (String.mk ('\t' :: pr.1.data), pr.2))
        else if e = 'u' then
          match rest2 with
          | h1 :: h2 :: h3 :: h4 :: rest3 =>
            match hexVal h1, hexVal h2, hexVal h3, hexVal h4 with
            | some a, some b, some c2, some d =>
              (parseStringBody fuel rest3).map
                (fun pr => (String.mk (Char.ofNat (a * 4096 + b * 256 + c2 * 16 + d) :: pr.1.data), pr.2))
            | _, _, _, _ => none
          | _ => none
        else none
    else if c.toNat < 32 then none
    else (parseStringBody fuel rest).map (fun pr => (String.mk (c :: pr.1.data), pr.2))

def digitsAux (acc : Nat) : List Char → Nat × List Char
  | [] => (acc, [])
  | c :: rest =>
    if c.isDigit then digitsAux (acc * 10 + (c.toNat - 48)) rest else (acc, c :: rest)

/-- Fractions and exponents are outside the integral number model; reject them
so that no JSON text parses to a wrong value. -/
def badNumTail (cs : List Char) : Bool :=
  match cs with
  | c :: _ => decide (c = '.' ∨ c = 'e' ∨ c = 'E')
  | [] => false

def parseNatNum (cs : List Char) : Option (Nat × List Char) :=
  match cs with
  | c :: rest =>
    if c = '0' then
      match rest with
      | d :: _ => if d.isDigit ∨ badNumTail rest then none else some (0, rest)
      | [] => some (0, [])
    else if c.isDigit then
      let pr := digitsAux (c.toNat - 48) rest
      if badNumTail pr.2 then none else some pr
    else none
  | [] => none

def parseNumber (cs : List Char) : Option (Int × List Char) :=
  match cs with
  | '-' :: rest => (parseNatNum rest).map (fun pr => (-(Int.ofNat pr.1), pr.2))
  | _ => (parseNatNum cs).map (fun pr => ((Int.ofNat pr.1 : Int), pr.2))

/-- Insert a field into an object under construction: a duplicate key keeps its
first position but takes the later value, as `JSON.parse` does. -/
def setField : List (String × JValue) → String → JValue → List (String × JValue)
  | [], k, v => [(k, v)]
  | (k', v') :: rest, k, v =>
    if k' = k then (k', v) :: rest else (k', v') :: setField rest k v

def lookupField : List (String × JValue) → String → Option JValue
  | [], _ => none
  | (k', v) :: rest, k => if k' = k then some v else lookupField rest k

mutual

def parseValue : Nat → List Char → Option (JValue × List Char)
  | 0, _ => none
  | fuel+1, cs =>
    match skipWs cs with
    | 'n' :: 'u' :: 'l' :: 'l' :: rest => some (.null, rest)
    | 't' :: 'r' :: 'u' :: 'e' :: rest => some (.bool true, rest)
    | 'f' :: 'a' :: 'l' :: 's' :: 'e' :: rest => some (.bool false, rest)
    | '"' :: rest => (parseStringBody (rest.length + 1) rest).map (fun pr => (.str pr.1, pr.2))
    | '[' :: rest =>
      match skipWs rest with
      | ']' :: rest2 => some (.arr [], rest2)
      | cs2 => parseArrayItems fuel cs2 []
    | '{' :: rest =>
      match skipWs rest with
      | '}' :: rest2 => some (.obj [], rest2)
      | cs2 => parseObjMembers fuel cs2 []
    | cs1 => (parseNumber cs1).map (fun pr => (.num pr.1, pr.2))

def parseArrayItems : Nat → List Char → List JValue → Option (JValue × List Char)
  | 0, _, _ => none
  | fuel+1, cs, acc =>
    match parseValue fuel cs with
    | none => none
    | some (v, rest) =>
      match skipWs rest with
      | ',' :: rest2 => parseArrayItems fuel rest2 (acc ++ [v])
      | ']' :: rest2 => some (.arr (acc ++ [v]), rest2)
      | _ => none

def parseObjMembers : Nat → List Char → List (String × JValue) → Option (JValue × List Char)
  | 0, _, _ => none
  | fuel+1, cs, acc =>
    match skipWs cs with
    | '"' :: rest =>
      match parseStringBody (rest.length + 1) rest with
      | none => none
      | some (k, rest2) =>
        match skipWs rest2 with
        | ':' :: rest3 =>
          match parseValue fuel rest3 with
          | none => none
          | some (v, rest4) =>
            match skipWs rest4 with
            | ',' :: rest5 => parseObjMembers fuel rest5 (setField acc k v)
            | '}' :: rest5 => some (.obj (setField acc k v), rest5)
            | _ => none
        | _ => none
    | _ => none

end

/-- Model of `JSON.parse`: `none` models the thrown `SyntaxError`. -/
def parseJSON (s : String) : Option JValue :=
  match parseValue (2 * s.length + 4) s.data with
  | some (v, rest) => if (skipWs rest).isEmpty then some v else none
  | none => none

/-! ### base64 / UTF-8 decoding (models of `atob` and `TextDecoder`) -/

def b64CharVal (c : Char) : Option Nat :=
  if 'A' ≤ c ∧ c ≤ 'Z' then some (c.toNat - 65)
  else if 'a' ≤ c ∧ c ≤ 'z' then some (c.toNat - 97 + 26)
  else if '0' ≤ c ∧ c ≤ '9' then some (c.toNat - 48 + 52)
  else if c = '+' then some 62
  else if c = '/' then some 63
  else none

def b64Groups : List Nat → Option (List Nat)
  | [] => some []
  | [_] => none
  | [a, b] => some [a * 4 + b / 16]
  | [a, b, c] => some [a * 4 + b / 16, (b % 16) * 16 + c / 4]
  | a :: b :: c :: d :: rest =>
    (b64Groups rest).map
      (fun tail => (a * 4 + b / 16) :: ((b % 16) * 16 + c / 4) :: ((c % 4) * 64 + d) :: tail)

/-- Remove up to two trailing `=` characters (the padding-strip step of
forgiving-base64 decoding). -/
def dropTrailingEquals (cs : List Char) : List Char :=
  match cs.reverse with
  | c1 :: c2 :: rest =>
    if c1 = '=' then (if c2 = '=' then rest.reverse else (c2 :: rest).reverse) else cs
  | [c1] => if c1 = '=' then [] else cs
  | [] => cs

/-- Map every character through the base64 alphabet (explicit recursion, the
`mapM` of the decode loop). -/
def b64Vals : List Char → Option (List Nat)
  | [] => some []
  | c :: rest =>
    match b64CharVal c, b64Vals rest with
    | some v, some vs => some (v :: vs)
    | _, _ => none

def b64IsWs (c : Char) : Prop :=
  c = ' ' ∨ c = '\t' ∨ c = '\n' ∨ c = '\r' ∨ c = '\x0c'

instance (c : Char) : Decidable (b64IsWs c) := by
  unfold b64IsWs
  infer_instance

/-- ASCII-whitespace removal, the first step of forgiving-base64 decoding. -/
def atobClean (s : String) : List Char :=
  s.data.filter (fun c => decide (¬ b64IsWs c))

/-- Padding strip: when the cleaned length is a multiple of 4, up to two
trailing `=` are removed. -/
def atobStripped (s : String) : List Char :=
  if (atobClean s).length % 4 = 0 then dropTrailingEquals (atobClean s) else atobClean s

/-- Model of the browser `atob` primitive (forgiving-base64 decode to bytes);
`none` models the thrown `InvalidCharacterError`. -/
def atobDecode (s : String) : Option (List Nat) :=
  if (atobStripped s).length % 4 = 1 then none
  else if (atobStripped s).any (fun c => decide (c = '=')) then none
  else
    match b64Vals (atobStripped s) with
    | none => none
    | some vals => b64Groups vals

def replacementChar : Char := Char.ofNat 0xFFFD

/-- Model of `TextDecoder().decode` with the default (non-fatal) mode:
invalid sequences produce U+FFFD rather than failing. -/
def utf8DecodeAux : Nat → List Nat → List Char
  | 0, _ => []
  | _, [] => []
  | fuel+1, b :: rest =>
    if b < 128 then Char.ofNat b :: utf8DecodeAux fuel rest
    else if 194 ≤ b ∧ b ≤ 223 then
      match rest with
      | c1 :: rest2 =>
        if 128 ≤ c1 ∧ c1 ≤ 191 then
          Char.ofNat ((b - 192) * 64 + (c1 - 128)) :: utf8DecodeAux fuel rest2
        else replacementChar :: utf8DecodeAux fuel rest
      | [] => [replacementChar]
    else if 224 ≤ b ∧ b ≤ 239 then
      match rest with
      | c1 :: c2 :: rest2 =>
        let lo1 := if b = 224 then 160 else 128
        let hi1 := if b = 237 then 159 else 191
        if (lo1 ≤ c1 ∧ c1 ≤ hi1) ∧ (128 ≤ c2 ∧ c2 ≤ 191) then
          Char.ofNat ((b - 224) * 4096 + (c1 - 128) * 64 + (c2 - 128)) :: utf8DecodeAux fuel rest2
        else replacementChar :: utf8DecodeAux fuel rest
      | _ => [replacementChar]
    else if 240 ≤ b ∧ b ≤ 244 then
      match rest with
      | c1 :: c2 :: c3 :: rest2 =>
        let lo1 := if b = 240 then 144 else 128
        let hi1 := if b = 244 then 143 else 191
        if (lo1 ≤ c1 ∧ c1 ≤ hi1) ∧ (128 ≤ c2 ∧ c2 ≤ 191) ∧ (128 ≤ c3 ∧ c3 ≤ 191) then
          Char.ofNat ((b - 240) * 262144 + (c1 - 128) * 4096 + (c2 - 128) * 64 + (c3 - 128))
            :: utf8DecodeAux fuel rest2
        else replacementChar :: utf8DecodeAux fuel rest
      | _ => [replacementChar]
    else replacementChar :: utf8DecodeAux fuel rest

def utf8Decode (bytes : List Nat) : String :=
  String.mk (utf8DecodeAux bytes.length bytes)

/-! ### `urlBase64Decode` (from `src/user.ts`) -/

/-- The message of the `Error` thrown by `urlBase64Decode` itself — a string
literal in the source, genuinely input-independent. -/
def msgIllegalB64 : String := "Illegal base64url string!"

/-- `atob`'s `InvalidCharacterError`: engines use a fixed sentence that does
not embed the input. -/
def msgAtobErr : String := "InvalidCharacterError: invalid base64"

/-- The `TypeError` from calling `.replace` on `split('.')[1]` when the token
has no second segment; engines name the missing property, not the input. -/
def msgUndefTypeErr : String := "TypeError: Cannot read properties of undefined"

/-- The `TypeError` from reading `.exp` on a `null` parse result; fixed
engine sentence, input-independent. -/
def msgNullTypeErr : String := "TypeError: Cannot read properties of null"

def jsonErrPfx : String := "SyntaxError: Unexpected token, \""

def jsonErrSfx : String := "\" is not valid JSON"

/-- The `SyntaxError` thrown by `JSON.parse`: on the engines this library
runs on (V8, JavaScriptCore) the message embeds a portion of the parsed
text, so it depends on the input.  The model conservatively embeds the whole
parsed text (engines truncate), which only makes the no-leak theorems below
stronger. -/
def msgJsonSyntaxFor (txt : String) : String :=
  jsonErrPfx ++ txt ++ jsonErrSfx

def b64UrlTranslate (s : String) : String :=
  String.mk (s.data.map (fun c => if c = '-' then '+' else if c = '_' then '/' else c))

/-- `atob` followed by the byte-to-text step.  The source converts the binary
string to a `Uint8Array` (an identity round-trip on byte values) and decodes it
with a default-mode `TextDecoder`, which never throws, so the `catch` fallback
to the raw binary string is unreachable and the decode is total on bytes. -/
def atobToText (s : String) : Except String String :=
  match atobDecode s with
  | none => .error msgAtobErr
  | some bytes => .ok (utf8Decode bytes)

/-- Model of `urlBase64Decode` in `src/user.ts`: translate the URL-safe
alphabet, pad by `length mod 4` (`0` no pad, `2` two `=`, `3` one `=`,
anything else throws), then base64-decode and interpret as UTF-8 text. -/
def urlBase64Decode (s : String) : Except String String :=
  if (b64UrlTranslate s).length % 4 = 0 then atobToText (b64UrlTranslate s)
  else if (b64UrlTranslate s).length % 4 = 2 then atobToText (b64UrlTranslate s ++ "==")
  else if (b64UrlTranslate s).length % 4 = 3 then atobToText (b64UrlTranslate s ++ "=")
  else .error msgIllegalB64

/-! ### JS value coercions used by the claim-extraction step -/

/-- Model of JS `Number(s)` restricted to the integral model: trimmed empty
string is `0`, an optional sign followed by digits is that integer, anything
else (fractions, hex, garbage) is `NaN`. -/
def strToNumber (s : String) : ExpVal :=
  let cs := (skipWs s.data).reverse
  let cs := (skipWs cs).reverse
  match cs with
  | [] => .val 0
  | '-' :: rest =>
    match parseNatNum rest with
    | some (n, []) => .val (-(Int.ofNat n))
    | _ => .nan
  | _ =>
    match parseNatNum cs with
    | some (n, []) => .val (Int.ofNat n)
    | _ => .nan

/-- Model of JS `ToNumber` on a parsed JSON value.  Array/object coercion via
`toPrimitive` is not modelled (mapped to `NaN`); no theorem depends on it. -/
def jsToNumber : JValue → ExpVal
  | .null => .val 0
  | .bool b => .val (if b then 1 else 0)
  | .num n => .val n
  | .str s => strToNumber s
  | .arr _ => .nan
  | .obj _ => .nan

/-- `ToNumber` applied to a possibly-`undefined` property value. -/
def jsOptToNumber : Option JValue → ExpVal
  | none => .nan
  | some v => jsToNumber v

/-- JS `x * 1000` on the coerced value: `NaN` is absorbing. -/
def expTimesThousand : ExpVal → ExpVal
  | .val n => .val (n * 1000)
  | _ => .nan

/-- JS property read `v.k`: throws a `TypeError` on `null`, yields `undefined`
on primitives and arrays, looks the key up on objects. -/
def jsGetProp : JValue → String → Except String (Option JValue)
  | .null, _ => .error msgNullTypeErr
  | .obj fields, k => .ok (lookupField fields k)
  | _, _ => .ok none

/-- JS truthiness of a possibly-`undefined` value. -/
def jsTruthy : Option JValue → Bool
  | none => false
  | some .null => false
  | some (.bool b) => b
  | some (.num n) => decide (n ≠ 0)
  | some (.str s) => decide (s ≠ "")
  | some (.arr _) => true
  | some (.obj _) => true

/-- Truthiness of the JS value `localStorage.getItem(key)` (a string or
`null`): the empty string is falsy. -/
def truthyStr : Option String → Bool
  | none => false
  | some s => decide (s ≠ "")

/-- Model of JS `hay.includes(needle)`: the needle occurs as a contiguous
substring of the haystack. -/
def strIncludes (hay needle : String) : Prop :=
  List.IsInfix needle.data hay.data

instance (hay needle : String) : Decidable (strIncludes hay needle) := by
  unfold strIncludes
  infer_instance

/-! ### Token data model and the expiry-decoding step -/

/-- The `Token` interface of `src/user.ts`.  `expires_at` and `expires_in`
are `ExpVal` because at runtime the server response may omit them
(`undefined`) and the decode step may produce `NaN`. -/
structure Token where
  access_token : String
  expires_at : ExpVal
  expires_in : ExpVal
  refresh_token : String
  token_type : String
deriving Repr, DecidableEq

def splitDotAux : List Char → List Char → List String
  | [], acc => [String.mk acc.reverse]
  | c :: rest, acc =>
    if c = '.' then String.mk acc.reverse :: splitDotAux rest []
    else splitDotAux rest (c :: acc)

/-- Model of JS `s.split('.')`. -/
def splitDot (s : String) : List String :=
  splitDotAux s.data []

/-- Stages of `_processTokenResponse` up to `JSON.parse`:
`access_token.split('.')[1]` (undefined-access `TypeError` when there is no
second segment), `urlBase64Decode`, `JSON.parse`. -/
def decodeClaims (access_token : String) : Except String JValue :=
  match (splitDot access_token).get? 1 with
  | none => .error msgUndefTypeErr
  | some payload =>
    match urlBase64Decode payload with
    | .error m => .error m
    | .ok txt =>
      match parseJSON txt with
      | none => .error (msgJsonSyntaxFor txt)
      | some claims => .ok claims

/-- The full expiry computation `claims.exp * 1000` of `_processTokenResponse`.
A missing or non-numeric `exp` does not fail: JS arithmetic on it yields
`NaN`. -/
def decodeExpiry (access_token : String) : Except String ExpVal :=
  match decodeClaims access_token with
  | .error m => .error m
  | .ok claims =>
    match jsGetProp claims "exp" with
    | .error m => .error m
    | .ok expv => .ok (expTimesThousand (jsOptToNumber expv))

def claimsLogPfx : String := "Gotrue-js: Failed to parse tokenResponse claims: "

/-- Model of `User._processTokenResponse`: store the response wholesale, then
try to overwrite `expires_at` with the decoded `exp * 1000`; on a thrown
decode error keep the response's `expires_at` and log once. -/
def processTokenResponse (resp : Token) : Token × List String :=
  match decodeExpiry resp.access_token with
  | .ok e => ({ resp with expires_at := e }, [])
  | .error m => (resp, [claimsLogPfx ++ m])

/-! ### Principal and process-wide state -/

/-- The `User` aggregate of `src/user.ts`.  The transport handle is modelled
opaquely by its `apiURL` string (the only property of `API` the user object
reads); all dynamic/server-supplied own properties (including
`_fromStorage`) live in `extra`. -/
structure Principal where
  api : String
  url : String
  audience : String
  token : Option Token
  extra : List (String × JValue)
deriving Repr

/-- Process-wide mutable state of the module: the `currentUser` reference,
the single `localStorage` slot under `storageKey`, and the in-flight refresh
registry `refreshPromises` (refresh-token value to ticket id, plus a fresh
ticket counter). -/
structure SysState where
  currentUser : Option Principal
  storage : Option String
  registry : List (String × Nat)
  nextTicket : Nat
deriving Repr

def storageKey : String := "gotrue.user"

def ExpiryMargin : Int := 60 * 1000

def refreshTimeoutMs : Nat := 30000

def refreshTimeoutMessage : String := "Token refresh timeout"

def regLookup : List (String × Nat) → String → Option Nat
  | [], _ => none
  | (k, t) :: rest, r => if k = r then some t else regLookup rest r

def eraseReg : List (String × Nat) → String → List (String × Nat)
  | [], _ => []
  | (k, t) :: rest, r => if k = r then eraseReg rest r else (k, t) :: eraseReg rest r

/-! ### Attribute merge (`_saveUserData`) -/

/-- Keys answered by `key in User.prototype`: the class's methods and
accessors together with the inherited `Object.prototype` members reachable on
the prototype chain. -/
def userPrototypeKeys : List String :=
  ["constructor", "admin", "update", "jwt", "logout", "_refreshToken", "_request",
   "getUserData", "_saveUserData", "_processTokenResponse", "_refreshSavedSession",
   "_details", "_saveSession", "tokenDetails", "clearSession",
   "hasOwnProperty", "isPrototypeOf", "propertyIsEnumerable", "toLocaleString",
   "toString", "valueOf", "__proto__", "__defineGetter__", "__defineSetter__",
   "__lookupGetter__", "__lookupSetter__"]

def forbiddenUpdateAttributes : List String := ["api", "token", "audience", "url"]

def forbiddenSaveAttributes : List String := ["api"]

def mergeStep (u : Principal) (kv : String × JValue) : Principal :=
  if kv.1 ∈ userPrototypeKeys ∨ kv.1 ∈ forbiddenUpdateAttributes then u
  else { u with extra := setField u.extra kv.1 kv.2 }

/-- Model of `User._saveUserData`: copy every attribute whose key collides
with neither `User.prototype` nor `forbiddenUpdateAttributes`, then set the
`_fromStorage` marker when requested. -/
def saveUserData (u : Principal) (attrs : List (String × JValue)) (fromStorage : Bool) :
    Principal :=
  let u1 := attrs.foldl mergeStep u
  if fromStorage then { u1 with extra := setField u1.extra "_fromStorage" (.bool true) } else u1

/-! ### Session persistence (`_details`, `_saveSession`, `_refreshSavedSession`) -/

def hexDigit (n : Nat) : Char :=
  if n < 10 then Char.ofNat (48 + n) else Char.ofNat (97 + n - 10)

def jsonQuoteChar (c : Char) : String :=
  if c = '"' then "\\\""
  else if c = '\\' then "\\\\"
  else if c = '\n' then "\\n"
  else if c = '\r' then "\\r"
  else if c = '\t' then "\\t"
  else if c = '\x08' then "\\b"
  else if c = '\x0c' then "\\f"
  else if c.toNat < 32 then
    "\\u00" ++ String.mk [(hexDigit (c.toNat / 16)), (hexDigit (c.toNat % 16))]
  else String.mk [c]

def jsonQuote (s : String) : String :=
  "\"" ++ String.join (s.data.map jsonQuoteChar) ++ "\""

mutual

def jsonStringify : JValue → String
  | .null => "null"
  | .bool true => "true"
  | .bool false => "false"
  | .num n => toString n
  | .str s => jsonQuote s
  | .arr xs => "[" ++ stringifyElems xs ++ "]"
  | .obj fs => "\x7b" ++ stringifyFields fs ++ "\x7d"

def stringifyElems : List JValue → String
  | [] => ""
  | [x] => jsonStringify x
  | x :: y :: rest => jsonStringify x ++ "," ++ stringifyElems (y :: rest)

def stringifyFields : List (String × JValue) → String
  | [] => ""
  | [(k, v)] => jsonQuote k ++ ":" ++ jsonStringify v
  | (k, v) :: f :: rest => jsonQuote k ++ ":" ++ jsonStringify v ++ "," ++ stringifyFields (f :: rest)

end

/-- JSON image of an `ExpVal` field: `undefined` fields are omitted by
`JSON.stringify` (signalled here by `none`), `NaN` serialises as `null`. -/
def expValJV : ExpVal → Option JValue
  | .undef => none
  | .nan => some .null
  | .val n => some (.num n)

def tokenFieldsJV (t : Token) : List (String × JValue) :=
  [("access_token", JValue.str t.access_token)]
  ++ (match expValJV t.expires_at with
      | some v => [("expires_at", v)]
      | none => [])
  ++ (match expValJV t.expires_in with
      | some v => [("expires_in", v)]
      | none => [])
  ++ [("refresh_token", JValue.str t.refresh_token), ("token_type", JValue.str t.token_type)]

def tokenJV : Option Token → JValue
  | none => .null
  | some t => .obj (tokenFieldsJV t)

/-- Model of the `_details` getter: every own enumerable property except the
prototype members and `forbiddenSaveAttributes` (`api`).  The fixed own
fields `url`, `audience`, `token` survive the filter; the dynamic properties
are `extra`. -/
def detailsJV (u : Principal) : JValue :=
  .obj ([("url", JValue.str u.url), ("audience", JValue.str u.audience),
         ("token", tokenJV u.token)] ++ u.extra)

/-- Model of `_saveSession`: write the serialised `_details` snapshot to the
fixed storage key. -/
def saveSession (u : Principal) (st : SysState) : SysState :=
  { st with storage := some (jsonStringify (detailsJV u)) }

/-- Model of `_refreshSavedSession`: rewrite the snapshot only when the code's
truthiness test on `localStorage.getItem(storageKey)` passes (a non-empty
stored string). -/
def refreshSavedSession (u : Principal) (st : SysState) : SysState :=
  if truthyStr st.storage then saveSession u st else st

/-- Model of `clearSession`: remove the persisted snapshot, null the token,
clear the process-wide current-user reference. -/
def clearSession (u : Principal) (st : SysState) : Principal × SysState :=
  ({ u with token := none }, { st with storage := none, currentUser := none })

/-! ### jwt and the single-flight refresh protocol

The scheduling model is single-threaded and cooperative: `jwt` and
`_refreshToken` run without suspension up to and including the registration
of the refresh ticket, so each is one atomic step on `SysState`.  A refresh
ticket is identified by a `Nat`; all callers that receive the same ticket id
await the same promise and therefore observe the same settled outcome.
The third component of each step's result counts the Transport refresh
requests issued by that step. -/

inductive JwtResult where
  | rejectedNoToken
  | resolved (access_token : String)
  | pending (ticket : Nat)
deriving Repr, DecidableEq

/-- The staleness test `expires_at - ExpiryMargin < Date.now()`; any
comparison against `NaN` (from an `undefined` or `NaN` `expires_at`) is
false. -/
def isStale (e : ExpVal) (now : Int) : Bool :=
  match e with
  | .val n => decide (n - ExpiryMargin < now)
  | _ => false

/-- Model of `User._refreshToken`: an existing in-flight ticket for the
refresh-token value is returned as is; otherwise one Transport request is
issued and a fresh ticket is registered before control is yielded. -/
def refreshTokenStep (st : SysState) (r : String) : JwtResult × SysState × Nat :=
  match regLookup st.registry r with
  | some tid => (.pending tid, st, 0)
  | none =>
    (.pending st.nextTicket,
     { st with registry := (r, st.nextTicket) :: st.registry, nextTicket := st.nextTicket + 1 },
     1)

/-- Model of `User.jwt`: reject with no token held; refresh when forced or
stale; otherwise resolve synchronously with the current access token. -/
def jwtStep (u : Principal) (st : SysState) (forceRefresh : Bool) (now : Int) :
    JwtResult × SysState × Nat :=
  match u.token with
  | none => (.rejectedNoToken, st, 0)
  | some t =>
    if forceRefresh || isStale t.expires_at now then refreshTokenStep st t.refresh_token
    else (.resolved t.access_token, st, 0)

/-- `n` cooperative callers invoking `jwt()` on the same principal before any
refresh settles: results, final state, and total Transport requests. -/
def jwtCalls : Nat → Principal → SysState → Int → List JwtResult × SysState × Nat
  | 0, _, st, _ => ([], st, 0)
  | n+1, u, st, now =>
    let out := jwtStep u st false now
    let outs := jwtCalls n u out.2.1 now
    (out.1 :: outs.1, outs.2.1, out.2.2 + outs.2.2)

/-- Model of the success handler of the refresh promise: remove the ticket,
process the token response, refresh the saved session if one exists, and
resolve every waiter with the new access token (or reject with the guard
error should the token be absent, which cannot happen here). -/
def settleRefreshSuccess (u : Principal) (st : SysState) (r : String) (resp : Token) :
    Principal × SysState × Except String String × List String :=
  let st1 := { st with registry := eraseReg st.registry r }
  let pr := processTokenResponse resp
  let u1 := { u with token := some pr.1 }
  let st2 := refreshSavedSession u1 st1
  match u1.token with
  | none => (u1, st2, .error "Gotrue-js: Token not set after refresh", pr.2)
  | some t => (u1, st2, .ok t.access_token, pr.2)

/-- Model of the failure handler of the refresh promise (request failure or
the lost 30-second race): remove the ticket, clear the session, and reject
every waiter with the original error. -/
def settleRefreshFailure (u : Principal) (st : SysState) (r : String) (err : String) :
    Principal × SysState × Except String String :=
  let st1 := { st with registry := eraseReg st.registry r }
  let cleared := clearSession u st1
  (cleared.1, cleared.2, .error err)

/-! ### Construction and session recovery -/

/-- Model of `new User(api, tokenResponse, audience)`: process the token
response (logging on decode failure) and set the process-wide current-user
reference. -/
def newUser (api : String) (resp : Token) (aud : String) (st : SysState) :
    Principal × SysState × List String :=
  let pr := processTokenResponse resp
  let u : Principal := { api := api, url := api, audience := aud, token := some pr.1, extra := [] }
  (u, { st with currentUser := some u }, pr.2)

def jvGet (v : JValue) (k : String) : Option JValue :=
  match v with
  | .obj fields => lookupField fields k
  | _ => none

def jvGetStrField (v : JValue) (k : String) : Option String :=
  match jvGet v k with
  | some (.str s) => some s
  | _ => none

def jvGetNumField (v : JValue) (k : String) : ExpVal :=
  match jvGet v k with
  | none => .undef
  | some w => jsToNumber w

def jvFields : JValue → List (String × JValue)
  | .obj fields => fields
  | _ => []

/-- Projection of a parsed JSON snapshot value onto the `Token` fields the
model reads; the source stores the raw parsed object, whose extra fields are
unobservable here.  Numeric-context fields are pre-coerced with `ToNumber`
(behaviourally equivalent at every use site of `expires_at`). -/
def tokenOfJValue (v : JValue) : Token :=
  { access_token :=
      match jvGetStrField v "access_token" with
      | some s => s
      | none => ""
  , expires_at := jvGetNumField v "expires_at"
  , expires_in := jvGetNumField v "expires_in"
  , refresh_token :=
      match jvGetStrField v "refresh_token" with
      | some s => s
      | none => ""
  , token_type :=
      match jvGetStrField v "token_type" with
      | some s => s
      | none => "" }

def recoverLogMsg : String := "Gotrue-js: Error recovering session: "

/-- Model of the static `User.recoverSession(apiInstance?)`: return the
current user when set; otherwise read the single stored snapshot; an absent
or empty slot yields nothing; a snapshot that fails `JSON.parse` (or whose
parse result is `null`, on which destructuring throws) is logged and yields
nothing; a parsed snapshot with falsy `url` or `token` yields nothing; and
otherwise a new principal is built from the stored data, merged with the
snapshot attributes, marked as storage-recovered and made current. -/
def recoverSession (apiURL? : Option String) (st : SysState) :
    Option Principal × SysState × List String :=
  match st.currentUser with
  | some u => (some u, st, [])
  | none =>
    if truthyStr st.storage then
      let json := match st.storage with
        | some s => s
        | none => ""
      match parseJSON json with
      | none => (none, st, [recoverLogMsg ++ msgJsonSyntaxFor json])
      | some .null => (none, st, [recoverLogMsg ++ msgNullTypeErr])
      | some data =>
        let urlv := jvGet data "url"
        let tokv := jvGet data "token"
        let audv := jvGet data "audience"
        if jsTruthy urlv ∧ jsTruthy tokv then
          let urlStr := match urlv with
            | some (.str s) => s
            | _ => ""
          let api := match apiURL? with
            | some a => a
            | none => urlStr
          let tok := tokenOfJValue (match tokv with
            | some w => w
            | none => .null)
          let aud := match audv with
            | some (.str s) => s
            | _ => ""
          let built := newUser api tok aud st
          let u1 := saveUserData built.1 (jvFields data) true
          (some u1, { built.2.1 with currentUser := some u1 }, built.2.2)
        else (none, st, [])
    else (none, st, [])

/-! ### Authenticated-request error rewriting (`_request`) -/

structure ErrorJSON where
  msg : Option String
  error : Option String
  error_description : Option String
deriving Repr, DecidableEq

inductive RequestError where
  | jsonHTTP (status : Nat) (message : String) (json : ErrorJSON)
  | textHTTP (status : Nat) (message : String) (data : String)
  | http (status : Nat) (message : String)
  | generic (message : String)
deriving Repr, DecidableEq

def RequestError.message : RequestError → String
  | .jsonHTTP _ m _ => m
  | .textHTTP _ m _ => m
  | .http _ m => m
  | .generic m => m

/-- Model of the catch clause of `User._request` (and `GoTrue._request`):
for a `JSONHTTPError`, a truthy `msg` replaces the message; otherwise a
truthy `error` yields the template `error: error_description` (an absent
description interpolates as the text `undefined`); any other error is left
with the message Transport produced. -/
def rewriteRequestError (e : RequestError) : RequestError :=
  match e with
  | .jsonHTTP s m j =>
    if truthyStr j.msg then
      .jsonHTTP s (match j.msg with
        | some v => v
        | none => "") j
    else if truthyStr j.error then
      .jsonHTTP s ((match j.error with
        | some v => v
        | none => "") ++ ": " ++ (match j.error_description with
        | some v => v
        | none => "undefined")) j
    else .jsonHTTP s m j
  | e => e

/-- The catch clause always re-raises: a failing authenticated request
surfaces as the rewritten error and is never swallowed. -/
def authedRequestOutcome (result : Except RequestError JValue) : Except RequestError JValue :=
  match result with
  | .ok v => .ok v
  | .error e => .error (rewriteRequestError e)

/-! ### Helper lemmas -/

lemma regLookup_eraseReg_self (reg : List (String × Nat)) (r : String) :
    regLookup (eraseReg reg r) r = none := by
  induction reg with
  | nil => rfl
  | cons a rest ih =>
    cases a with
    | mk k t =>
      by_cases h : k = r
      · simp [eraseReg, h, ih]
      · simp [eraseReg, regLookup, h, ih]

lemma lookup_setField (l : List (String × JValue)) (k : String) (v : JValue) (k' : String) :
    lookupField (setField l k v) k' = if k = k' then some v else lookupField l k' := by
  induction l with
  | nil =>
    by_cases h : k = k' <;> simp [setField, lookupField, h]
  | cons a rest ih =>
    cases a with
    | mk a1 a2 =>
      by_cases hak : a1 = k
      · subst hak
        by_cases hk : a1 = k' <;> simp [setField, lookupField, hk]
      · by_cases hk : a1 = k'
        · subst hk
          have : ¬ k = a1 := fun hh => hak hh.symm
          simp [setField, lookupField, hak, this]
        · simp [setField, lookupField, hak, hk, ih]

/-- The value a JS `for (key in attrs) this[key] = attrs[key]` loop leaves
under `key`: the last occurrence wins. -/
def assignedValue : List (String × JValue) → String → Option JValue
  | [], _ => none
  | (k', v) :: rest, k =>
    match assignedValue rest k with
    | some w => some w
    | none => if k' = k then some v else none

lemma mergeStep_fixed (u : Principal) (kv : String × JValue) :
    (mergeStep u kv).api = u.api ∧ (mergeStep u kv).url = u.url
    ∧ (mergeStep u kv).audience = u.audience ∧ (mergeStep u kv).token = u.token := by
  unfold mergeStep
  split <;> exact ⟨rfl, rfl, rfl, rfl⟩

lemma mergeFold_fixed (attrs : List (String × JValue)) :
    ∀ u : Principal,
      (List.foldl mergeStep u attrs).api = u.api
      ∧ (List.foldl mergeStep u attrs).url = u.url
      ∧ (List.foldl mergeStep u attrs).audience = u.audience
      ∧ (List.foldl mergeStep u attrs).token = u.token := by
  induction attrs with
  | nil => intro u; exact ⟨rfl, rfl, rfl, rfl⟩
  | cons a rest ih =>
    intro u
    have h1 := ih (mergeStep u a)
    have h2 := mergeStep_fixed u a
    simp only [List.foldl_cons]
    exact ⟨h1.1.trans h2.1, h1.2.1.trans h2.2.1, h1.2.2.1.trans h2.2.2.1, h1.2.2.2.trans h2.2.2.2⟩

lemma mergeStep_extra (u : Principal) (kv : String × JValue) :
    (mergeStep u kv).extra =
      if kv.1 ∈ userPrototypeKeys ∨ kv.1 ∈ forbiddenUpdateAttributes then u.extra
      else setField u.extra kv.1 kv.2 := by
  unfold mergeStep
  split <;> simp_all

lemma mergeFold_lookup (attrs : List (String × JValue)) :
    ∀ (u : Principal) (k : String),
      lookupField (List.foldl mergeStep u attrs).extra k =
        if k ∈ userPrototypeKeys ∨ k ∈ forbiddenUpdateAttributes then lookupField u.extra k
        else
          match assignedValue attrs k with
          | some v => some v
          | none => lookupField u.extra k := by
  induction attrs with
  | nil =>
    intro u k
    split <;> simp [assignedValue]
  | cons a rest ih =>
    intro u k
    cases a with
    | mk a1 a2 =>
      simp only [List.foldl_cons]
      rw [ih (mergeStep u (a1, a2)) k]
      by_cases hk : k ∈ userPrototypeKeys ∨ k ∈ forbiddenUpdateAttributes
      · rw [if_pos hk, if_pos hk]
        rw [mergeStep_extra]
        by_cases ha : a1 ∈ userPrototypeKeys ∨ a1 ∈ forbiddenUpdateAttributes
        · rw [if_pos ha]
        · rw [if_neg ha, lookup_setField]
          have hne : ¬ a1 = k := by
            intro hh
            subst hh
            exact ha hk
          rw [if_neg hne]
      · rw [if_neg hk, if_neg hk]
        rw [mergeStep_extra]
        by_cases ha : a1 ∈ userPrototypeKeys ∨ a1 ∈ forbiddenUpdateAttributes
        · rw [if_pos ha]
          have hne : ¬ a1 = k := by
            intro hh
            subst hh
            exact hk ha
          simp only [assignedValue, if_neg hne]
          cases assignedValue rest k <;> rfl
        · rw [if_neg ha, lookup_setField]
          simp only [assignedValue]
          cases hv : assignedValue rest k with
          | some w => rfl
          | none =>
            by_cases hne : a1 = k
            · rw [if_pos hne, if_pos hne]
            · rw [if_neg hne, if_neg hne]

lemma atobToText_error (s m : String) (h : atobToText s = .error m) : m = msgAtobErr := by
  unfold atobToText at h
  cases hd : atobDecode s <;> rw [hd] at h <;> simp_all

lemma urlBase64Decode_error (s m : String) (h : urlBase64Decode s = .error m) :
    m = msgAtobErr ∨ m = msgIllegalB64 := by
  unfold urlBase64Decode at h
  split_ifs at h with h0 h2 h3
  · exact Or.inl (atobToText_error _ _ h)
  · exact Or.inl (atobToText_error _ _ h)
  · exact Or.inl (atobToText_error _ _ h)
  · simp only [Except.error.injEq] at h
    exact Or.inr h.symm

lemma jsGetProp_error (v : JValue) (k m : String) (h : jsGetProp v k = .error m) :
    m = msgNullTypeErr := by
  cases v <;> simp_all [jsGetProp]

lemma jwtCalls_registered (n : Nat) :
    ∀ (u : Principal) (st : SysState) (t : Token) (now : Int) (tid : Nat),
      u.token = some t → isStale t.expires_at now = true →
      regLookup st.registry t.refresh_token = some tid →
      jwtCalls n u st now = (List.replicate n (.pending tid), st, 0) := by
  induction n with
  | zero => intro u st t now tid _ _ _; rfl
  | succ n ih =>
    intro u st t now tid ht hstale hreg
    have hstep : jwtStep u st false now = (.pending tid, st, 0) := by
      unfold jwtStep
      rw [ht]
      simp only [Bool.false_or, hstale, if_true]
      unfold refreshTokenStep
      rw [hreg]
    simp only [jwtCalls, hstep]
    rw [ih u st t now tid ht hstale hreg]
    simp [List.replicate_succ]

/-! ### Lemmas for the no-leak property of decode logging

The logged decode errors fall into two groups: constant engine sentences
containing no `.` character (while any token that possesses a payload
segment contains a `.`), and the `JSON.parse` message, which embeds the
base64-decoded payload.  For the latter, base64 decoding strictly shrinks
nonempty input, so the token — which is strictly longer than its own payload
segment — cannot fit inside the embedded text, and the fixed template parts
around it contain neither a `.` nor any character a decodable payload may
contain at the template boundary. -/

lemma splitDotAux_no_dot (cs : List Char) :
    ∀ acc, '.' ∉ cs → splitDotAux cs acc = [String.mk (acc.reverse ++ cs)] := by
  induction cs with
  | nil => intro acc _; simp [splitDotAux]
  | cons c rest ih =>
    intro acc h
    have hc : ¬ c = '.' := fun hh => h (hh ▸ List.mem_cons_self c rest)
    have hrest : '.' ∉ rest := fun hh => h (List.mem_cons_of_mem c hh)
    simp only [splitDotAux, if_neg hc]
    rw [ih (c :: acc) hrest]
    simp

lemma splitDotAux_with_dot (pre : List Char) :
    ∀ (rest acc : List Char), '.' ∉ pre →
      splitDotAux (pre ++ '.' :: rest) acc
        = String.mk (acc.reverse ++ pre) :: splitDotAux rest [] := by
  induction pre with
  | nil => intro rest acc _; simp [splitDotAux]
  | cons c pre' ih =>
    intro rest acc h
    have hc : ¬ c = '.' := fun hh => h (hh ▸ List.mem_cons_self c pre')
    have hpre : '.' ∉ pre' := fun hh => h (List.mem_cons_of_mem c hh)
    show splitDotAux ((c :: pre') ++ '.' :: rest) acc = _
    rw [List.cons_append]
    have hstep : splitDotAux (c :: (pre' ++ '.' :: rest)) acc
        = if c = '.' then String.mk acc.reverse :: splitDotAux (pre' ++ '.' :: rest) []
          else splitDotAux (pre' ++ '.' :: rest) (c :: acc) := rfl
    rw [hstep, if_neg hc, ih rest (c :: acc) hpre]
    simp

lemma first_dot_decomp (cs : List Char) :
    '.' ∉ cs ∨ ∃ pre rest, cs = pre ++ '.' :: rest ∧ '.' ∉ pre := by
  induction cs with
  | nil => exact Or.inl (by simp)
  | cons c rest ih =>
    by_cases hc : c = '.'
    · exact Or.inr ⟨[], rest, by simp [hc], by simp⟩
    · rcases ih with h | ⟨pre, r2, hr, hp⟩
      · refine Or.inl (fun hmem => ?_)
        rcases List.mem_cons.mp hmem with h1 | h1
        · exact hc h1.symm
        · exact h h1
      · refine Or.inr ⟨c :: pre, r2, by simp [hr], fun hmem => ?_⟩
        rcases List.mem_cons.mp hmem with h1 | h1
        · exact hc h1.symm
        · exact hp h1

lemma splitDot_structure (T P : String) (h : (splitDot T).get? 1 = some P) :
    ∃ t₀ t₂ : List Char, T.data = t₀ ++ '.' :: (P.data ++ t₂)
      ∧ (t₂ = [] ∨ ∃ t', t₂ = '.' :: t') := by
  unfold splitDot at h
  rcases first_dot_decomp T.data with hnd | ⟨pre, rest, heq, hpre⟩
  · rw [splitDotAux_no_dot T.data [] hnd] at h
    simp at h
  · rw [heq, splitDotAux_with_dot pre rest [] hpre] at h
    simp only [List.get?] at h
    rcases first_dot_decomp rest with hnd2 | ⟨pre₂, rest₂, heq₂, hpre₂⟩
    · rw [splitDotAux_no_dot rest [] hnd2] at h
      simp only [List.get?] at h
      have hP : P.data = rest := by
        have h2 := Option.some.inj h
        simp [← h2]
      exact ⟨pre, [], by simp [heq, hP], Or.inl rfl⟩
    · rw [heq₂, splitDotAux_with_dot pre₂ rest₂ [] hpre₂] at h
      simp only [List.get?] at h
      have hP : P.data = pre₂ := by
        have h2 := Option.some.inj h
        simp [← h2]
      exact ⟨pre, '.' :: rest₂, by simp [heq, heq₂, hP], Or.inr ⟨rest₂, rfl⟩⟩

lemma dot_decomp (u v A S B : List Char) (hA : '.' ∉ A) (hB : '.' ∉ B)
    (h : u ++ '.' :: v = A ++ (S ++ B)) :
    ∃ s₁ s₂, S = s₁ ++ '.' :: s₂ ∧ u = A ++ s₁ ∧ v = s₂ ++ B := by
  rcases List.append_eq_append_iff.mp h with ⟨a', hA', hrest⟩ | ⟨c', hu, hrest⟩
  · cases a' with
    | nil =>
      simp only [List.nil_append] at hrest
      cases S with
      | nil =>
        simp only [List.nil_append] at hrest
        exact absurd (hrest ▸ List.mem_cons_self '.' v) hB
      | cons c S' =>
        simp only [List.cons_append] at hrest
        have hc := (List.cons.injEq _ _ _ _).mp hrest
        refine ⟨[], S', by rw [← hc.1]; rfl, ?_, hc.2⟩
        simp only [List.append_nil] at hA' ⊢
        rw [hA']
    | cons c a'' =>
      have hcdot : c = '.' := ((List.cons.injEq _ _ _ _).mp hrest.symm).1
      exact absurd (hA' ▸ List.mem_append_right u (hcdot ▸ List.mem_cons_self c a'')) hA
  · rcases List.append_eq_append_iff.mp hrest with ⟨w, hc', hB'⟩ | ⟨w, hS, hd⟩
    · exact absurd (hB' ▸ List.mem_append_right w (List.mem_cons_self '.' v)) hB
    · cases w with
      | nil =>
        simp only [List.nil_append] at hd
        exact absurd (hd ▸ List.mem_cons_self '.' v) hB
      | cons c w' =>
        simp only [List.cons_append] at hd
        have hc := (List.cons.injEq _ _ _ _).mp hd.symm
        exact ⟨c', w', by rw [hS, hc.1], hu, hc.2.symm⟩

lemma dropTrailingEquals_spec (l : List Char) :
    ∃ e, e ≤ 2 ∧ l = dropTrailingEquals l ++ List.replicate e '=' := by
  rcases hr : l.reverse with _ | ⟨c1, rest1⟩
  · have hl : l = [] := by simpa using congrArg List.reverse hr
    have hd : dropTrailingEquals l = l := by
      unfold dropTrailingEquals
      rw [hr]
    exact ⟨0, by omega, by rw [hd]; simp⟩
  · have hl : l = rest1.reverse ++ [c1] := by
      have h2 := congrArg List.reverse hr
      simpa using h2
    rcases rest1 with _ | ⟨c2, rest2⟩
    · have hd : dropTrailingEquals l = if c1 = '=' then [] else l := by
        unfold dropTrailingEquals
        rw [hr]
      by_cases h1 : c1 = '='
      · refine ⟨1, by omega, ?_⟩
        rw [hd, if_pos h1]
        rw [hl, h1]
        rfl
      · exact ⟨0, by omega, by rw [hd, if_neg h1]; simp⟩
    · have hd : dropTrailingEquals l
          = if c1 = '=' then (if c2 = '=' then rest2.reverse else (c2 :: rest2).reverse) else l := by
        unfold dropTrailingEquals
        rw [hr]
      have hl2 : l = rest2.reverse ++ [c2] ++ [c1] := by simpa using hl
      by_cases h1 : c1 = '='
      · by_cases h2 : c2 = '='
        · refine ⟨2, by omega, ?_⟩
          rw [hd, if_pos h1, if_pos h2, hl2, h1, h2]
          simp [List.append_assoc, List.replicate]
        · refine ⟨1, by omega, ?_⟩
          rw [hd, if_pos h1, if_neg h2, hl2, h1]
          simp [List.append_assoc, List.replicate]
      · exact ⟨0, by omega, by rw [hd, if_neg h1]; simp⟩

lemma b64Vals_length : ∀ (l : List Char) (v : List Nat),
    b64Vals l = some v → v.length = l.length := by
  intro l
  induction l with
  | nil =>
    intro v h
    simp only [b64Vals, Option.some.injEq] at h
    simp [← h]
  | cons c rest ih =>
    intro v h
    cases hc : b64CharVal c with
    | none => simp [b64Vals, hc] at h
    | some val =>
      cases hr : b64Vals rest with
      | none => simp [b64Vals, hc, hr] at h
      | some vs =>
        simp only [b64Vals, hc, hr, Option.some.injEq] at h
        rw [← h]
        simp [ih vs hr]

lemma b64Vals_all : ∀ (l : List Char) (v : List Nat),
    b64Vals l = some v → ∀ c ∈ l, b64CharVal c ≠ none := by
  intro l
  induction l with
  | nil => intro v _ c hc; exact absurd hc (by simp)
  | cons c0 rest ih =>
    intro v h c hc
    cases hc0 : b64CharVal c0 with
    | none => simp [b64Vals, hc0] at h
    | some val =>
      cases hr : b64Vals rest with
      | none => simp [b64Vals, hc0, hr] at h
      | some vs =>
        rcases List.mem_cons.mp hc with hceq | hcmem
        · rw [hceq, hc0]; simp
        · exact ih vs hr c hcmem

lemma b64Groups_shrinks : ∀ (l : List Nat) (bs : List Nat),
    b64Groups l = some bs → bs = [] ∨ bs.length < l.length
  | [], bs, h => by
    simp only [b64Groups, Option.some.injEq] at h
    exact Or.inl h.symm
  | [_], bs, h => by simp [b64Groups] at h
  | [_, _], bs, h => by
    simp only [b64Groups, Option.some.injEq] at h
    right
    rw [← h]
    simp
  | [_, _, _], bs, h => by
    simp only [b64Groups, Option.some.injEq] at h
    right
    rw [← h]
    simp
  | _ :: _ :: _ :: _ :: rest, bs, h => by
    simp only [b64Groups] at h
    cases hr : b64Groups rest with
    | none => rw [hr] at h; simp at h
    | some tail =>
      rw [hr] at h
      simp only [Option.map_some', Option.some.injEq] at h
      rcases b64Groups_shrinks rest tail hr with h0 | hlt
      · right
        rw [← h, h0]
        simp only [List.length_cons, List.length_nil]
        omega
      · right
        rw [← h]
        simp only [List.length_cons]
        omega

lemma utf8DecodeAux_length_le : ∀ (fuel : Nat) (bs : List Nat),
    (utf8DecodeAux fuel bs).length ≤ fuel := by
  intro fuel
  induction fuel with
  | zero => intro bs; simp [utf8DecodeAux]
  | succ f ih =>
    intro bs
    cases bs with
    | nil => simp [utf8DecodeAux]
    | cons b rest =>
      have hite : ∀ (p : Prop) (inst : Decidable p) (x1 x2 : Char) (bs1 bs2 : List Nat),
          (@ite _ p inst (x1 :: utf8DecodeAux f bs1) (x2 :: utf8DecodeAux f bs2)).length ≤ f + 1 := by
        intro p inst x1 x2 bs1 bs2
        by_cases hp : p
        · rw [if_pos hp]
          simp only [List.length_cons]
          exact Nat.succ_le_succ (ih _)
        · rw [if_neg hp]
          simp only [List.length_cons]
          exact Nat.succ_le_succ (ih _)
      unfold utf8DecodeAux
      repeat' split
      all_goals simp only [List.length_cons, List.length_nil, List.length_singleton]
      all_goals first
        | omega
        | exact Nat.succ_le_succ (ih _)
        | exact hite _ _ _ _ _ _

lemma atobToText_ok_bounds (Q : String) (pads : List Char) (hp : ∀ c ∈ pads, c = '=')
    (D : String) (h : atobToText (Q ++ String.mk pads) = .ok D) :
    (D.data.length < Q.data.length ∨ D.data = [])
    ∧ (∀ c ∈ Q.data, b64IsWs c ∨ c = '=' ∨ b64CharVal c ≠ none) := by
  cases ha : atobDecode (Q ++ String.mk pads) with
  | none => rw [atobToText, ha] at h; exact absurd h (by simp)
  | some bytes =>
    rw [atobToText, ha] at h
    simp only [Except.ok.injEq] at h
    have hDlen : D.data.length ≤ bytes.length := by
      rw [← h]
      exact utf8DecodeAux_length_le bytes.length bytes
    unfold atobDecode at ha
    by_cases h1 : (atobStripped (Q ++ String.mk pads)).length % 4 = 1
    · rw [if_pos h1] at ha; exact absurd ha (by simp)
    rw [if_neg h1] at ha
    by_cases h2 : (atobStripped (Q ++ String.mk pads)).any (fun c => decide (c = '=')) = true
    · rw [if_pos h2] at ha; exact absurd ha (by simp)
    rw [if_neg (by simpa using h2)] at ha
    cases hv : b64Vals (atobStripped (Q ++ String.mk pads)) with
    | none => rw [hv] at ha; exact absurd ha (by simp)
    | some vals =>
      rw [hv] at ha
      have hvlen : vals.length = (atobStripped (Q ++ String.mk pads)).length :=
        b64Vals_length _ _ hv
      have hnoeq : '=' ∉ atobStripped (Q ++ String.mk pads) := by
        intro hmem
        exact h2 (List.any_eq_true.mpr ⟨'=', hmem, by simp⟩)
      obtain ⟨e, _, hsplit⟩ : ∃ e, e ≤ 2 ∧ atobClean (Q ++ String.mk pads)
          = atobStripped (Q ++ String.mk pads) ++ List.replicate e '=' := by
        unfold atobStripped
        by_cases h4 : (atobClean (Q ++ String.mk pads)).length % 4 = 0
        · rw [if_pos h4]
          exact dropTrailingEquals_spec _
        · rw [if_neg h4]
          exact ⟨0, by omega, by simp⟩
      have hclean : atobClean (Q ++ String.mk pads)
          = Q.data.filter (fun c => decide (¬ b64IsWs c)) ++ pads := by
        show (Q.data ++ pads).filter _ = _
        rw [List.filter_append]
        congr 1
        apply List.filter_eq_self.mpr
        intro c hc
        rw [hp c hc]
        decide
      have hcount_pads : pads.count '=' = pads.length :=
        List.count_eq_length.mpr (fun b hb => (hp b hb).symm)
      have hclean_len : (atobClean (Q ++ String.mk pads)).length
          = (Q.data.filter (fun c => decide (¬ b64IsWs c))).length + pads.length := by
        rw [hclean]; simp
      have hclean_count : (atobClean (Q ++ String.mk pads)).count '='
          = (Q.data.filter (fun c => decide (¬ b64IsWs c))).count '=' + pads.length := by
        rw [hclean, List.count_append, hcount_pads]
      have hstrip_count : (atobStripped (Q ++ String.mk pads)).count '=' = 0 :=
        List.count_eq_zero.mpr hnoeq
      have hsplit_len : (atobClean (Q ++ String.mk pads)).length
          = (atobStripped (Q ++ String.mk pads)).length + e := by
        rw [hsplit]; simp
      have hsplit_count : (atobClean (Q ++ String.mk pads)).count '=' = e := by
        rw [hsplit, List.count_append, hstrip_count, List.count_replicate_self]
        simp
      have hfQ_count_le : (Q.data.filter (fun c => decide (¬ b64IsWs c))).count '='
          ≤ (Q.data.filter (fun c => decide (¬ b64IsWs c))).length :=
        List.count_le_length _ _
      have hfQ_le : (Q.data.filter (fun c => decide (¬ b64IsWs c))).length ≤ Q.data.length :=
        List.length_filter_le _ _
      constructor
      · rcases b64Groups_shrinks vals bytes ha with hb0 | hblt
        · right
          rw [← h, hb0]
          rfl
        · left
          omega
      · intro c hc
        by_cases hws : b64IsWs c
        · exact Or.inl hws
        by_cases hceq : c = '='
        · exact Or.inr (Or.inl hceq)
        right; right
        have hcin : c ∈ atobClean (Q ++ String.mk pads) := by
          rw [hclean]
          exact List.mem_append_left _ (List.mem_filter.mpr ⟨hc, by simpa using hws⟩)
        have hcin2 : c ∈ atobStripped (Q ++ String.mk pads) := by
          rw [hsplit] at hcin
          rcases List.mem_append.mp hcin with h' | h'
          · exact h'
          · exact absurd (List.eq_of_mem_replicate h') hceq
        exact b64Vals_all _ _ hv c hcin2

lemma urlB64_shrinks (P D : String) (h : urlBase64Decode P = .ok D) :
    D.data.length < P.data.length ∨ D.data = [] := by
  have hQlen : (b64UrlTranslate P).data.length = P.data.length := by
    show (P.data.map _).length = _
    simp
  unfold urlBase64Decode at h
  split_ifs at h with h0 h2 h3
  · have heq : b64UrlTranslate P ++ String.mk [] = b64UrlTranslate P := by
      show String.mk ((b64UrlTranslate P).data ++ []) = _
      rw [List.append_nil]
    rcases (atobToText_ok_bounds (b64UrlTranslate P) [] (by simp) D (by rw [heq]; exact h)).1
        with hlt | hnil
    · left; omega
    · right; exact hnil
  · rcases (atobToText_ok_bounds (b64UrlTranslate P) ['=', '='] (by decide) D h).1
        with hlt | hnil
    · left; omega
    · right; exact hnil
  · rcases (atobToText_ok_bounds (b64UrlTranslate P) ['='] (by decide) D h).1
        with hlt | hnil
    · left; omega
    · right; exact hnil

lemma urlB64_no_quote (P D : String) (h : urlBase64Decode P = .ok D) : '"' ∉ P.data := by
  intro hq
  have hq2 : '"' ∈ (b64UrlTranslate P).data := by
    show '"' ∈ P.data.map _
    exact List.mem_map.mpr ⟨'"', hq, rfl⟩
  have hfin : b64IsWs '"' ∨ '"' = '=' ∨ b64CharVal '"' ≠ none → False := by
    intro hd
    rcases hd with hws | hceq | hval
    · exact absurd hws (by decide)
    · exact absurd hceq (by decide)
    · exact hval rfl
  unfold urlBase64Decode at h
  split_ifs at h with h0 h2 h3
  · have heq : b64UrlTranslate P ++ String.mk [] = b64UrlTranslate P := by
      show String.mk ((b64UrlTranslate P).data ++ []) = _
      rw [List.append_nil]
    exact hfin ((atobToText_ok_bounds (b64UrlTranslate P) [] (by simp) D
      (by rw [heq]; exact h)).2 '"' hq2)
  · exact hfin ((atobToText_ok_bounds (b64UrlTranslate P) ['=', '='] (by decide) D h).2 '"' hq2)
  · exact hfin ((atobToText_ok_bounds (b64UrlTranslate P) ['='] (by decide) D h).2 '"' hq2)

lemma dot_stage_no_leak (T P m : String)
    (hseg : (splitDot T).get? 1 = some P) (hdot : '.' ∉ (claimsLogPfx ++ m).data) :
    ¬ strIncludes (claimsLogPfx ++ m) T := by
  intro hinc
  obtain ⟨t₀, t₂, hT, _⟩ := splitDot_structure T P hseg
  have hdotT : '.' ∈ T.data := by rw [hT]; simp
  exact hdot (hinc.subset hdotT)

lemma json_stage_no_leak (T P D : String)
    (hseg : (splitDot T).get? 1 = some P)
    (hdec : urlBase64Decode P = .ok D) :
    ¬ strIncludes (claimsLogPfx ++ msgJsonSyntaxFor D) T := by
  intro hinc
  obtain ⟨t₀, t₂, hT, ht₂⟩ := splitDot_structure T P hseg
  obtain ⟨x, y, hxy⟩ := hinc
  have hA : '.' ∉ (claimsLogPfx ++ jsonErrPfx).data := by decide
  have hB : '.' ∉ jsonErrSfx.data := by decide
  have hx : (x ++ t₀) ++ '.' :: (P.data ++ (t₂ ++ y))
      = (claimsLogPfx ++ jsonErrPfx).data ++ (D.data ++ jsonErrSfx.data) := by
    have hM : (claimsLogPfx ++ msgJsonSyntaxFor D).data
        = (claimsLogPfx ++ jsonErrPfx).data ++ (D.data ++ jsonErrSfx.data) := by
      show (claimsLogPfx.data ++ (jsonErrPfx.data ++ D.data ++ jsonErrSfx.data)) = _
      simp [List.append_assoc]
    rw [← hM, ← hxy, hT]
    simp [List.append_assoc]
  obtain ⟨s₁, s₂, hD, hu, hv⟩ := dot_decomp _ _ _ _ _ hA hB hx
  have hs₂ : s₂.length < D.data.length := by
    rw [hD]
    simp
    omega
  rcases urlB64_shrinks P D hdec with hshr | hnil
  swap
  · rw [hnil] at hD
    exact absurd hD.symm (by simp)
  rcases ht₂ with h2nil | ⟨t', h2dot⟩
  · rw [h2nil] at hv
    simp only [List.nil_append] at hv
    rcases List.append_eq_append_iff.mp hv with ⟨w, hw1, _⟩ | ⟨w, hw1, hw2⟩
    · have : P.data.length ≤ s₂.length := by rw [hw1]; simp
      omega
    · cases w with
      | nil =>
        have : P.data.length = s₂.length := by rw [hw1]; simp
        omega
      | cons cw w' =>
        have hcB : cw = '"' := by
          have h0 : jsonErrSfx.data = cw :: (w' ++ y) := hw2
          rw [show jsonErrSfx.data = '"' :: (" is not valid JSON".data) from rfl] at h0
          exact ((List.cons.injEq _ _ _ _).mp h0).1.symm
        have hqin : '"' ∈ P.data := by
          rw [hw1, ← hcB]
          exact List.mem_append_right _ (List.mem_cons_self cw w')
        exact urlB64_no_quote P D hdec hqin
  · rw [h2dot] at hv
    have hv' : P.data ++ '.' :: (t' ++ y) = ([] : List Char) ++ (s₂ ++ jsonErrSfx.data) := by
      simpa [List.append_assoc] using hv
    obtain ⟨q₁, q₂, hq, hPq, _⟩ := dot_decomp _ _ _ _ _ (by simp) hB hv'
    have hq1 : P.data.length ≤ s₂.length := by
      rw [hq, hPq]
      simp
    omega

/-! ### Claim theorems -/

/-- C1.  Single-flight refresh: when the registry already holds an in-flight
ticket for the refresh-token value, `_refreshToken` returns that very ticket,
changes no state and issues no Transport request; when it does not, exactly
one Transport request is issued and the ticket is registered before control
is yielded; consequently any number `N ≥ 1` of cooperative `jwt()` callers on
the same stale token issue exactly one Transport request in total and all
hold the same ticket — whose single settled outcome (the new access token,
see the last conjunct) every waiter therefore receives identically. -/
theorem C1_single_flight_refresh :
    (∀ (st : SysState) (r : String) (tid : Nat), regLookup st.registry r = some tid →
      refreshTokenStep st r = (.pending tid, st, 0))
    ∧ (∀ (st : SysState) (r : String), regLookup st.registry r = none →
        (refreshTokenStep st r).1 = .pending st.nextTicket
        ∧ regLookup (refreshTokenStep st r).2.1.registry r = some st.nextTicket
        ∧ (refreshTokenStep st r).2.2 = 1)
    ∧ (∀ (N : Nat) (u : Principal) (st : SysState) (t : Token) (now : Int), 1 ≤ N →
        u.token = some t → isStale t.expires_at now = true →
        regLookup st.registry t.refresh_token = none →
        (jwtCalls N u st now).1 = List.replicate N (.pending st.nextTicket)
        ∧ (jwtCalls N u st now).2.2 = 1)
    ∧ (∀ (u : Principal) (st : SysState) (r : String) (resp : Token),
        (settleRefreshSuccess u st r resp).2.2.1 = .ok (processTokenResponse resp).1.access_token) := by
  refine ⟨?_, ?_, ?_, ?_⟩
  · intro st r tid hreg
    unfold refreshTokenStep
    rw [hreg]
  · intro st r hreg
    unfold refreshTokenStep
    rw [hreg]
    refine ⟨rfl, ?_, rfl⟩
    simp [regLookup]
  · intro N u st t now hN ht hstale hreg
    obtain ⟨n, rfl⟩ : ∃ n, N = n + 1 := ⟨N - 1, (Nat.succ_pred_eq_of_pos hN).symm⟩
    have hrt : refreshTokenStep st t.refresh_token =
        (.pending st.nextTicket, (refreshTokenStep st t.refresh_token).2.1, 1) := by
      unfold refreshTokenStep
      rw [hreg]
    have hstep : jwtStep u st false now =
        (.pending st.nextTicket, (refreshTokenStep st t.refresh_token).2.1, 1) := by
      unfold jwtStep
      rw [ht]
      simp only [Bool.false_or, hstale, if_true]
      exact hrt
    have hreg2 : regLookup (refreshTokenStep st t.refresh_token).2.1.registry t.refresh_token
        = some st.nextTicket := by
      unfold refreshTokenStep
      rw [hreg]
      simp [regLookup]
    simp only [jwtCalls, hstep]
    rw [jwtCalls_registered n u _ t now st.nextTicket ht hstale hreg2]
    simp [List.replicate_succ]
  · intro u st r resp
    unfold settleRefreshSuccess
    rfl

/-- C1 witness: two callers on a concrete stale token with an empty registry
issue exactly one Transport request and both receive ticket 0. -/
theorem C1_single_flight_refresh_witness :
    (jwtCalls 2 ⟨"a", "a", "", some ⟨"OLD", .val 0, .undef, "r", "bearer"⟩, []⟩
        ⟨none, none, [], 0⟩ 100000).1 = List.replicate 2 (.pending 0)
    ∧ (jwtCalls 2 ⟨"a", "a", "", some ⟨"OLD", .val 0, .undef, "r", "bearer"⟩, []⟩
        ⟨none, none, [], 0⟩ 100000).2.2 = 1 :=
  C1_single_flight_refresh.2.2.1 2 _ _ ⟨"OLD", .val 0, .undef, "r", "bearer"⟩ 100000
    (by decide) rfl (by decide) rfl

/-- C2 counterexample.  At the exact boundary `expires_at - now = 60000` the
claim says `jwt()` delegates to the refresh protocol (here: a pending ticket
and one Transport request); the code's test `expires_at - ExpiryMargin <
Date.now()` is false there, so it resolves synchronously with the current
access token and issues no request. -/
theorem C2_boundary_counterexample :
    jwtStep ⟨"a", "a", "", some ⟨"ACCESS", .val 60000, .undef, "r", "bearer"⟩, []⟩
        ⟨none, none, [], 0⟩ false 0
      = (.resolved "ACCESS", ⟨none, none, [], 0⟩, 0)
    ∧ (jwtStep ⟨"a", "a", "", some ⟨"ACCESS", .val 60000, .undef, "r", "bearer"⟩, []⟩
        ⟨none, none, [], 0⟩ false 0).2.2 ≠ 1 :=
  ⟨rfl, by decide⟩

/-- C2 (amended).  With `forceRefresh` unset and a numeric `expires_at`,
`jwt()` resolves synchronously with the current access token and no Transport
request exactly when `expires_at - now ≥ 60000` (at least the margin remains,
including the boundary instant `expires_at - now = 60000`); strictly inside
the margin or past expiry it delegates to the refresh protocol. -/
theorem C2_freshness_decision_amended (u : Principal) (st : SysState) (t : Token)
    (e now : Int) (ht : u.token = some t) (he : t.expires_at = .val e) :
    (ExpiryMargin ≤ e - now → jwtStep u st false now = (.resolved t.access_token, st, 0))
    ∧ (e - now < ExpiryMargin → jwtStep u st false now = refreshTokenStep st t.refresh_token) := by
  have hs : isStale t.expires_at now = decide (e - ExpiryMargin < now) := by
    rw [he]; rfl
  constructor
  · intro hfresh
    have hlt : ¬ e - ExpiryMargin < now := by omega
    unfold jwtStep
    rw [ht]
    simp [hs, hlt]
  · intro hstale
    have hlt : e - ExpiryMargin < now := by omega
    unfold jwtStep
    rw [ht]
    simp [hs, hlt]

/-- C2 witness: a token 61 seconds from expiry resolves synchronously, a
token 59 seconds from expiry delegates to the refresh protocol. -/
theorem C2_freshness_decision_amended_witness :
    jwtStep ⟨"a", "a", "", some ⟨"ACCESS", .val 61000, .undef, "r", "bearer"⟩, []⟩
        ⟨none, none, [], 0⟩ false 0
      = (.resolved "ACCESS", ⟨none, none, [], 0⟩, 0)
    ∧ jwtStep ⟨"a", "a", "", some ⟨"ACCESS", .val 59000, .undef, "r", "bearer"⟩, []⟩
        ⟨none, none, [], 0⟩ false 0
      = refreshTokenStep ⟨none, none, [], 0⟩ "r" :=
  ⟨(C2_freshness_decision_amended _ ⟨none, none, [], 0⟩ _ 61000 0 rfl rfl).1 (by decide),
   (C2_freshness_decision_amended _ ⟨none, none, [], 0⟩ _ 59000 0 rfl rfl).2 (by decide)⟩

/-- C3.  A failed or timed-out refresh removes the ticket from the registry,
clears the session — token nulled, persisted snapshot removed, current-user
reference cleared — and propagates the original error to every waiter on the
ticket (the settled outcome is the original rejection).  The race timer the
timeout error comes from is the 30-second constant. -/
theorem C3_refresh_failure_clears_session (u : Principal) (st : SysState)
    (r : String) (err : String) :
    (settleRefreshFailure u st r err).1.token = none
    ∧ regLookup (settleRefreshFailure u st r err).2.1.registry r = none
    ∧ (settleRefreshFailure u st r err).2.1.storage = none
    ∧ (settleRefreshFailure u st r err).2.1.currentUser = none
    ∧ (settleRefreshFailure u st r err).2.2 = .error err
    ∧ refreshTimeoutMs = 30000 := by
  refine ⟨rfl, ?_, rfl, rfl, rfl, rfl⟩
  exact regLookup_eraseReg_self st.registry r

/-- C4.  A successful refresh replaces the held token wholesale by the
response (with `expires_at` re-derived from the new access token whenever the
decode succeeds), removes the ticket, resolves every waiter with the new
access token, and rewrites the persisted snapshot exactly when the code's
existence test on the stored slot passes (a non-empty stored string — the
Storage API yields `null` for an absent key, and the system never writes an
empty snapshot); when no snapshot exists nothing is written. -/
theorem C4_refresh_success_postcondition (u : Principal) (st : SysState)
    (r : String) (resp : Token) :
    (settleRefreshSuccess u st r resp).1.token = some (processTokenResponse resp).1
    ∧ (∀ e, decodeExpiry resp.access_token = .ok e →
        (settleRefreshSuccess u st r resp).1.token = some { resp with expires_at := e })
    ∧ regLookup (settleRefreshSuccess u st r resp).2.1.registry r = none
    ∧ (settleRefreshSuccess u st r resp).2.2.1 = .ok (processTokenResponse resp).1.access_token
    ∧ (truthyStr st.storage = true →
        (settleRefreshSuccess u st r resp).2.1.storage
          = some (jsonStringify (detailsJV { u with token := some (processTokenResponse resp).1 })))
    ∧ (truthyStr st.storage = false →
        (settleRefreshSuccess u st r resp).2.1.storage = st.storage) := by
  refine ⟨rfl, ?_, ?_, rfl, ?_, ?_⟩
  · intro e he
    show some (processTokenResponse resp).1 = _
    unfold processTokenResponse
    rw [he]
  · show regLookup (refreshSavedSession _ _).registry r = none
    unfold refreshSavedSession
    split
    · exact regLookup_eraseReg_self st.registry r
    · exact regLookup_eraseReg_self st.registry r
  · intro htruthy
    show (refreshSavedSession _ _).storage = _
    unfold refreshSavedSession
    rw [if_pos (by simpa using htruthy)]
    rfl
  · intro hfalsy
    show (refreshSavedSession _ _).storage = _
    unfold refreshSavedSession
    rw [if_neg (by simpa using hfalsy)]

/-- C4 witness: a concrete refresh response against a state with a persisted
snapshot; the token is wholesale-replaced with `expires_at = 1000000`, the
snapshot slot is rewritten. -/
theorem C4_refresh_success_postcondition_witness :
    (settleRefreshSuccess ⟨"a", "a", "", some ⟨"OLD", .val 0, .undef, "r", "bearer"⟩, []⟩
        ⟨none, some "old-snapshot", [("r", 0)], 1⟩ "r"
        ⟨"x.eyJleHAiOjEwMDB9.y", .undef, .val 3600, "r2", "bearer"⟩).1.token
      = some ⟨"x.eyJleHAiOjEwMDB9.y", .val 1000000, .val 3600, "r2", "bearer"⟩
    ∧ (settleRefreshSuccess ⟨"a", "a", "", some ⟨"OLD", .val 0, .undef, "r", "bearer"⟩, []⟩
        ⟨none, some "old-snapshot", [("r", 0)], 1⟩ "r"
        ⟨"x.eyJleHAiOjEwMDB9.y", .undef, .val 3600, "r2", "bearer"⟩).2.1.storage
      = some (jsonStringify (detailsJV ⟨"a", "a", "",
          some ⟨"x.eyJleHAiOjEwMDB9.y", .val 1000000, .val 3600, "r2", "bearer"⟩, []⟩)) := by
  have h := C4_refresh_success_postcondition
    ⟨"a", "a", "", some ⟨"OLD", .val 0, .undef, "r", "bearer"⟩, []⟩
    ⟨none, some "old-snapshot", [("r", 0)], 1⟩ "r"
    ⟨"x.eyJleHAiOjEwMDB9.y", .undef, .val 3600, "r2", "bearer"⟩
  refine ⟨?_, ?_⟩
  · have := h.2.1 (.val 1000000) (by rfl)
    simpa using this
  · have hst := h.2.2.2.2.1 (by decide)
    rw [hst]
    have hproc : (processTokenResponse
        ⟨"x.eyJleHAiOjEwMDB9.y", .undef, .val 3600, "r2", "bearer"⟩).1
        = ⟨"x.eyJleHAiOjEwMDB9.y", .val 1000000, .val 3600, "r2", "bearer"⟩ := by rfl
    rw [hproc]

/-- C10.  A token whose `expires_at` was never derived (`undefined`) or is
`NaN` is treated as permanently fresh: `jwt()` without `forceRefresh` always
resolves with the held access token, touches no state and never enters the
refresh protocol, because the JS comparison `expires_at - 60000 < now` is
false for `NaN`; moreover a failing decode at construction leaves the
response's `expires_at` untouched, so a response without the field keeps it
absent. -/
theorem C10_absent_expiry_always_fresh (u : Principal) (st : SysState) (t : Token)
    (now : Int) (ht : u.token = some t)
    (he : t.expires_at = .undef ∨ t.expires_at = .nan) :
    jwtStep u st false now = (.resolved t.access_token, st, 0)
    ∧ (∀ (resp : Token) (m : String), decodeExpiry resp.access_token = .error m →
        (processTokenResponse resp).1.expires_at = resp.expires_at) := by
  constructor
  · have hs : isStale t.expires_at now = false := by
      rcases he with h | h <;> rw [h] <;> rfl
    unfold jwtStep
    rw [ht]
    simp [hs]
  · intro resp m hm
    unfold processTokenResponse
    rw [hm]

/-- C10 witness: a principal built from a response whose payload is not valid
base64 JSON (`header.invalid.secret`) holds an `undefined` expiry and `jwt()`
resolves with the held access token at any time. -/
theorem C10_absent_expiry_always_fresh_witness :
    jwtStep ⟨"a", "a", "", some ⟨"header.invalid.secret", .undef, .undef, "r", "bearer"⟩, []⟩
        ⟨none, none, [], 0⟩ false 99999999999999
      = (.resolved "header.invalid.secret", ⟨none, none, [], 0⟩, 0) :=
  (C10_absent_expiry_always_fresh _ _ _ 99999999999999 rfl (Or.inl rfl)).1

/-- C5.  The server-attribute merge is a frame on the protected machinery:
for every attribute map, the transport handle (`api`), token, audience and
origin-URL fields are unchanged, every key colliding with a member of
`User.prototype` or with `forbiddenUpdateAttributes` is skipped, and every
other key (apart from the internal `_fromStorage` marker the call itself may
set) is copied onto the principal with JS last-write-wins semantics. -/
theorem C5_merge_frame_property (u : Principal) (attrs : List (String × JValue)) (fs : Bool) :
    (saveUserData u attrs fs).api = u.api
    ∧ (saveUserData u attrs fs).url = u.url
    ∧ (saveUserData u attrs fs).audience = u.audience
    ∧ (saveUserData u attrs fs).token = u.token
    ∧ (∀ k, (k ∈ userPrototypeKeys ∨ k ∈ forbiddenUpdateAttributes) →
        lookupField (saveUserData u attrs fs).extra k = lookupField u.extra k)
    ∧ (∀ k, k ∉ userPrototypeKeys → k ∉ forbiddenUpdateAttributes → k ≠ "_fromStorage" →
        lookupField (saveUserData u attrs fs).extra k =
          (match assignedValue attrs k with
           | some v => some v
           | none => lookupField u.extra k)) := by
  have hfix := mergeFold_fixed attrs u
  have hfix2 : ∀ u1 : Principal,
      (if fs then { u1 with extra := setField u1.extra "_fromStorage" (.bool true) } else u1).api = u1.api
      ∧ (if fs then { u1 with extra := setField u1.extra "_fromStorage" (.bool true) } else u1).url = u1.url
      ∧ (if fs then { u1 with extra := setField u1.extra "_fromStorage" (.bool true) } else u1).audience = u1.audience
      ∧ (if fs then { u1 with extra := setField u1.extra "_fromStorage" (.bool true) } else u1).token = u1.token := by
    intro u1
    cases fs <;> exact ⟨rfl, rfl, rfl, rfl⟩
  have hextra : ∀ (u1 : Principal) (k : String), k ≠ "_fromStorage" →
      lookupField (if fs then { u1 with extra := setField u1.extra "_fromStorage" (.bool true) } else u1).extra k
        = lookupField u1.extra k := by
    intro u1 k hk
    cases fs
    · rfl
    · show lookupField (setField u1.extra "_fromStorage" (.bool true)) k = _
      rw [lookup_setField, if_neg (fun hh => hk hh.symm)]
  unfold saveUserData
  refine ⟨((hfix2 _).1).trans hfix.1, ((hfix2 _).2.1).trans hfix.2.1,
    ((hfix2 _).2.2.1).trans hfix.2.2.1, ((hfix2 _).2.2.2).trans hfix.2.2.2, ?_, ?_⟩
  · intro k hk
    have hne : k ≠ "_fromStorage" := by
      intro hh
      subst hh
      revert hk
      decide
    rw [hextra _ k hne, mergeFold_lookup attrs u k, if_pos hk]
  · intro k h1 h2 h3
    rw [hextra _ k h3, mergeFold_lookup attrs u k, if_neg (by tauto)]

/-- C5 witness: a hostile attribute map trying to overwrite `api`, `token`,
`audience`, `url` and the `jwt` method leaves all of them unchanged, while a
custom profile key is copied. -/
theorem C5_merge_frame_property_witness :
    (saveUserData ⟨"a", "a", "aud", none, []⟩
        [("api", .str "evil"), ("token", .str "evil"), ("audience", .str "evil"),
         ("url", .str "evil"), ("jwt", .str "evil"), ("custom_field", .str "ok")] false).api = "a"
    ∧ (saveUserData ⟨"a", "a", "aud", none, []⟩
        [("api", .str "evil"), ("token", .str "evil"), ("audience", .str "evil"),
         ("url", .str "evil"), ("jwt", .str "evil"), ("custom_field", .str "ok")] false).token = none
    ∧ lookupField (saveUserData ⟨"a", "a", "aud", none, []⟩
        [("api", .str "evil"), ("token", .str "evil"), ("audience", .str "evil"),
         ("url", .str "evil"), ("jwt", .str "evil"), ("custom_field", .str "ok")] false).extra "jwt"
      = none
    ∧ lookupField (saveUserData ⟨"a", "a", "aud", none, []⟩
        [("api", .str "evil"), ("token", .str "evil"), ("audience", .str "evil"),
         ("url", .str "evil"), ("jwt", .str "evil"), ("custom_field", .str "ok")] false).extra
        "custom_field"
      = some (.str "ok") := by
  have h := C5_merge_frame_property ⟨"a", "a", "aud", none, []⟩
    [("api", .str "evil"), ("token", .str "evil"), ("audience", .str "evil"),
     ("url", .str "evil"), ("jwt", .str "evil"), ("custom_field", .str "ok")] false
  refine ⟨h.1, h.2.2.2.1, ?_, ?_⟩
  · rw [h.2.2.2.2.1 "jwt" (by decide)]
    rfl
  · rw [h.2.2.2.2.2 "custom_field" (by decide) (by decide) (by decide)]
    rfl

/-- C6.  Expiry decoding is exact: for every token whose second dot-separated
segment URL-base64-decodes to a text that parses as a JSON object with an
integral `exp` field, `decodeExpiry` yields exactly `exp * 1000` and
construction stores the response token with `expires_at = exp * 1000` and
logs nothing; furthermore the padding rule is by `length mod 4` — `0` no
pad, `2` two `=`, `3` one `=`, remainder `1` fails immediately (the
alphabet translation `-`→`+`, `_`→`/` preserves length). -/
theorem C6_decode_expiry_exact (api aud : String) (st : SysState) (resp : Token)
    (payload txt : String) (fields : List (String × JValue)) (n : Int)
    (hseg : (splitDot resp.access_token).get? 1 = some payload)
    (hb64 : urlBase64Decode payload = .ok txt)
    (hjson : parseJSON txt = some (.obj fields))
    (hexp : lookupField fields "exp" = some (.num n)) :
    decodeExpiry resp.access_token = .ok (.val (n * 1000))
    ∧ (newUser api resp aud st).1.token = some { resp with expires_at := .val (n * 1000) }
    ∧ (newUser api resp aud st).2.2 = []
    ∧ (∀ s : String, (b64UrlTranslate s).length = s.length)
    ∧ (∀ s : String, s.length % 4 = 1 → urlBase64Decode s = .error msgIllegalB64)
    ∧ (∀ s : String, s.length % 4 = 0 → urlBase64Decode s = atobToText (b64UrlTranslate s))
    ∧ (∀ s : String, s.length % 4 = 2 → urlBase64Decode s = atobToText (b64UrlTranslate s ++ "=="))
    ∧ (∀ s : String, s.length % 4 = 3 → urlBase64Decode s = atobToText (b64UrlTranslate s ++ "=")) := by
  have hlen : ∀ s : String, (b64UrlTranslate s).length = s.length := by
    intro s
    show (s.data.map _).length = s.data.length
    rw [List.length_map]
  have hdec : decodeExpiry resp.access_token = .ok (.val (n * 1000)) := by
    unfold decodeExpiry decodeClaims
    simp only [hseg, hb64, hjson]
    show Except.ok (expTimesThousand (jsOptToNumber (lookupField fields "exp"))) = _
    rw [hexp]
    rfl
  refine ⟨hdec, ?_, ?_, hlen, ?_, ?_, ?_, ?_⟩
  · show some (processTokenResponse resp).1 = _
    unfold processTokenResponse
    rw [hdec]
  · show (processTokenResponse resp).2 = []
    unfold processTokenResponse
    rw [hdec]
  · intro s hs
    unfold urlBase64Decode
    rw [hlen s, hs]
    rfl
  · intro s hs
    unfold urlBase64Decode
    rw [hlen s, hs]
    rfl
  · intro s hs
    unfold urlBase64Decode
    rw [hlen s, hs]
    rfl
  · intro s hs
    unfold urlBase64Decode
    rw [hlen s, hs]
    rfl

/-- C6 witness: the token `x.eyJleHAiOjEwMDB9.y`, whose payload is the JSON
`\x7b"exp":1000\x7d`, decodes to exactly `1000000` ms; a payload of length
`1 mod 4` fails with the illegal-length error. -/
theorem C6_decode_expiry_exact_witness :
    decodeExpiry "x.eyJleHAiOjEwMDB9.y" = .ok (.val 1000000)
    ∧ (newUser "a" ⟨"x.eyJleHAiOjEwMDB9.y", .undef, .undef, "r", "bearer"⟩ "" ⟨none, none, [], 0⟩).1.token
      = some ⟨"x.eyJleHAiOjEwMDB9.y", .val 1000000, .undef, "r", "bearer"⟩
    ∧ urlBase64Decode "!" = .error msgIllegalB64 := by
  have h := C6_decode_expiry_exact "a" "" ⟨none, none, [], 0⟩
    ⟨"x.eyJleHAiOjEwMDB9.y", .undef, .undef, "r", "bearer"⟩
    "eyJleHAiOjEwMDB9" "\x7b\"exp\":1000\x7d" [("exp", .num 1000)] 1000
    rfl rfl rfl rfl
  exact ⟨h.1, h.2.1, h.2.2.2.2.1 "!" rfl⟩

/-- C7 counterexample.  The claim says every failing decode stage — among
them a missing `exp` — logs an error exactly once and leaves the expiry
unset.  For the token `x.eyJmb28iOjF9.y` (payload `\x7b"foo":1\x7d`, valid
JSON without `exp`) the code logs nothing at all and sets `expires_at` to
`NaN` (`undefined * 1000`). -/
theorem C7_missing_exp_counterexample :
    processTokenResponse ⟨"x.eyJmb28iOjF9.y", .undef, .undef, "r", "bearer"⟩
      = (⟨"x.eyJmb28iOjF9.y", .nan, .undef, "r", "bearer"⟩, [])
    ∧ (processTokenResponse ⟨"x.eyJmb28iOjF9.y", .undef, .undef, "r", "bearer"⟩).2.length ≠ 1 :=
  ⟨rfl, by decide⟩

/-- C7 (amended).  Decode failure is non-fatal and leak-free for the stages
that throw: whenever the decode pipeline fails, construction still completes
with the response token held and its `expires_at` exactly as in the response,
and exactly one error is logged.  For every token that possesses a payload
segment, the logged message never contains the access-token string: the
constant stage sentences contain no `.` while such a token does, and the
`JSON.parse` message embeds only the base64-decoded payload, which is
strictly shorter than the payload segment, so the token cannot fit inside
it.  A payload that decodes and parses but lacks `exp` instead sets
`expires_at` to `NaN` and logs nothing (invalid UTF-8 never fails at the
text-decoding stage: the default `TextDecoder` substitutes U+FFFD). -/
theorem C7_decode_failure_amended (resp : Token) :
    (∀ m, decodeExpiry resp.access_token = .error m →
      processTokenResponse resp = (resp, [claimsLogPfx ++ m]))
    ∧ (∀ P m, (splitDot resp.access_token).get? 1 = some P →
        decodeExpiry resp.access_token = .error m →
        ¬ strIncludes (claimsLogPfx ++ m) resp.access_token)
    ∧ (∀ claims, decodeClaims resp.access_token = .ok claims →
        jsGetProp claims "exp" = .ok none →
        processTokenResponse resp = ({ resp with expires_at := .nan }, [])) := by
  refine ⟨?_, ?_, ?_⟩
  · intro m hm
    unfold processTokenResponse
    rw [hm]
  · intro P m hseg herr
    cases hb : urlBase64Decode P with
    | error m2 =>
      have hdc : decodeClaims resp.access_token = .error m2 := by
        simp only [decodeClaims, hseg, hb]
      have hm : m = m2 := by
        simp only [decodeExpiry, hdc, Except.error.injEq] at herr
        exact herr.symm
      rcases urlBase64Decode_error P m2 hb with h2 | h2
      · rw [hm, h2]
        exact dot_stage_no_leak _ P msgAtobErr hseg (by decide)
      · rw [hm, h2]
        exact dot_stage_no_leak _ P msgIllegalB64 hseg (by decide)
    | ok D =>
      cases hp : parseJSON D with
      | none =>
        have hdc : decodeClaims resp.access_token = .error (msgJsonSyntaxFor D) := by
          simp only [decodeClaims, hseg, hb, hp]
        have hm : m = msgJsonSyntaxFor D := by
          simp only [decodeExpiry, hdc, Except.error.injEq] at herr
          exact herr.symm
        rw [hm]
        exact json_stage_no_leak _ P D hseg hb
      | some claims =>
        have hdc : decodeClaims resp.access_token = .ok claims := by
          simp only [decodeClaims, hseg, hb, hp]
        cases hg : jsGetProp claims "exp" with
        | error m2 =>
          have hm2 : m2 = msgNullTypeErr := jsGetProp_error claims "exp" m2 hg
          have hm : m = m2 := by
            simp only [decodeExpiry, hdc, hg, Except.error.injEq] at herr
            exact herr.symm
          rw [hm, hm2]
          exact dot_stage_no_leak _ P msgNullTypeErr hseg (by decide)
        | ok expv =>
          simp only [decodeExpiry, hdc, hg] at herr
          exact Except.noConfusion herr
  · intro claims hc hg
    have hdec : decodeExpiry resp.access_token = .ok .nan := by
      unfold decodeExpiry
      simp only [hc, hg]
      rfl
    unfold processTokenResponse
    rw [hdec]

/-- C7 witness: a payload with an illegal base64url length logs exactly the
stage message and keeps the response's absent expiry; the logged message for
that token does not contain the token; the `exp`-less payload of
`x.eyJmb28iOjF9.y` yields `NaN` with no log. -/
theorem C7_decode_failure_amended_witness :
    processTokenResponse ⟨"a.!.c", .undef, .undef, "r", "bearer"⟩
      = (⟨"a.!.c", .undef, .undef, "r", "bearer"⟩, [claimsLogPfx ++ msgIllegalB64])
    ∧ ¬ strIncludes (claimsLogPfx ++ msgIllegalB64) "a.!.c"
    ∧ processTokenResponse ⟨"x.eyJmb28iOjF9.y", .undef, .undef, "r", "bearer"⟩
      = (⟨"x.eyJmb28iOjF9.y", .nan, .undef, "r", "bearer"⟩, []) :=
  ⟨(C7_decode_failure_amended ⟨"a.!.c", .undef, .undef, "r", "bearer"⟩).1 msgIllegalB64 rfl,
   (C7_decode_failure_amended ⟨"a.!.c", .undef, .undef, "r", "bearer"⟩).2.1 "!" msgIllegalB64
     rfl rfl,
   (C7_decode_failure_amended ⟨"x.eyJmb28iOjF9.y", .undef, .undef, "r", "bearer"⟩).2.2
     (.obj [("foo", .num 1)]) rfl rfl⟩

lemma saveUserData_fromStorage (u : Principal) (attrs : List (String × JValue)) :
    lookupField (saveUserData u attrs true).extra "_fromStorage" = some (.bool true) := by
  unfold saveUserData
  show lookupField (setField _ "_fromStorage" (.bool true)) "_fromStorage" = _
  rw [lookup_setField, if_pos rfl]

/-- C8.  Session recovery is total (never raises) and idempotent: an already
current principal is returned unchanged with no state change; with no
(truthy) stored snapshot nothing is returned; a snapshot that fails
`JSON.parse` — or parses to `null`, on which the destructuring throws inside
the same `try` — is logged once and yields nothing; a parsed snapshot whose
`url` or `token` is falsy yields nothing without logging; and only a snapshot
with both present yields a principal marked `_fromStorage` and installed as
the current principal. -/
theorem C8_recover_session_total (apiURL? : Option String) (st : SysState) :
    (∀ u, st.currentUser = some u → recoverSession apiURL? st = (some u, st, []))
    ∧ (st.currentUser = none → truthyStr st.storage = false →
        recoverSession apiURL? st = (none, st, []))
    ∧ (∀ s, st.currentUser = none → st.storage = some s → s ≠ "" → parseJSON s = none →
        recoverSession apiURL? st = (none, st, [recoverLogMsg ++ msgJsonSyntaxFor s]))
    ∧ (∀ s, st.currentUser = none → st.storage = some s → s ≠ "" → parseJSON s = some .null →
        recoverSession apiURL? st = (none, st, [recoverLogMsg ++ msgNullTypeErr]))
    ∧ (∀ s data, st.currentUser = none → st.storage = some s → s ≠ "" →
        parseJSON s = some data → data ≠ .null →
        ¬(jsTruthy (jvGet data "url") = true ∧ jsTruthy (jvGet data "token") = true) →
        recoverSession apiURL? st = (none, st, []))
    ∧ (∀ s data, st.currentUser = none → st.storage = some s → s ≠ "" →
        parseJSON s = some data → data ≠ .null →
        jsTruthy (jvGet data "url") = true → jsTruthy (jvGet data "token") = true →
        ∃ u, (recoverSession apiURL? st).1 = some u
          ∧ lookupField u.extra "_fromStorage" = some (.bool true)
          ∧ (recoverSession apiURL? st).2.1.currentUser = some u) := by
  refine ⟨?_, ?_, ?_, ?_, ?_, ?_⟩
  · intro u hcur
    simp only [recoverSession, hcur]
  · intro hcur hstor
    simp only [recoverSession, hcur, hstor, Bool.false_eq_true, if_false]
  · intro s hcur hstor hs hparse
    simp only [recoverSession, hcur, hstor, truthyStr, hs, decide_True, if_true, hparse,
      ne_eq, not_false_eq_true]
  · intro s hcur hstor hs hparse
    simp only [recoverSession, hcur, hstor, truthyStr, hs, decide_True, if_true, hparse,
      ne_eq, not_false_eq_true]
  · intro s data hcur hstor hs hparse hnn hfalsy
    cases data with
    | null => exact absurd rfl hnn
    | bool b =>
      simp only [recoverSession, hcur, hstor, truthyStr, hs, decide_True, if_true, hparse,
        ne_eq, not_false_eq_true]
      rw [if_neg hfalsy]
    | num n =>
      simp only [recoverSession, hcur, hstor, truthyStr, hs, decide_True, if_true, hparse,
        ne_eq, not_false_eq_true]
      rw [if_neg hfalsy]
    | str s2 =>
      simp only [recoverSession, hcur, hstor, truthyStr, hs, decide_True, if_true, hparse,
        ne_eq, not_false_eq_true]
      rw [if_neg hfalsy]
    | arr xs =>
      simp only [recoverSession, hcur, hstor, truthyStr, hs, decide_True, if_true, hparse,
        ne_eq, not_false_eq_true]
      rw [if_neg hfalsy]
    | obj fs =>
      simp only [recoverSession, hcur, hstor, truthyStr, hs, decide_True, if_true, hparse,
        ne_eq, not_false_eq_true]
      rw [if_neg hfalsy]
  · intro s data hcur hstor hs hparse hnn hu ht
    cases data with
    | null => exact absurd rfl hnn
    | bool b =>
      simp only [recoverSession, hcur, hstor, truthyStr, hs, decide_True, if_true, hparse,
        ne_eq, not_false_eq_true]
      rw [if_pos ⟨hu, ht⟩]
      exact ⟨_, rfl, saveUserData_fromStorage _ _, rfl⟩
    | num n =>
      simp only [recoverSession, hcur, hstor, truthyStr, hs, decide_True, if_true, hparse,
        ne_eq, not_false_eq_true]
      rw [if_pos ⟨hu, ht⟩]
      exact ⟨_, rfl, saveUserData_fromStorage _ _, rfl⟩
    | str s2 =>
      simp only [recoverSession, hcur, hstor, truthyStr, hs, decide_True, if_true, hparse,
        ne_eq, not_false_eq_true]
      rw [if_pos ⟨hu, ht⟩]
      exact ⟨_, rfl, saveUserData_fromStorage _ _, rfl⟩
    | arr xs =>
      simp only [recoverSession, hcur, hstor, truthyStr, hs, decide_True, if_true, hparse,
        ne_eq, not_false_eq_true]
      rw [if_pos ⟨hu, ht⟩]
      exact ⟨_, rfl, saveUserData_fromStorage _ _, rfl⟩
    | obj fs =>
      simp only [recoverSession, hcur, hstor, truthyStr, hs, decide_True, if_true, hparse,
        ne_eq, not_false_eq_true]
      rw [if_pos ⟨hu, ht⟩]
      exact ⟨_, rfl, saveUserData_fromStorage _ _, rfl⟩

/-- C8 witness: a current principal is returned unchanged; an empty state
recovers nothing; a corrupt snapshot logs and recovers nothing; a snapshot
without a token recovers nothing; a complete snapshot yields a
storage-recovered principal. -/
theorem C8_recover_session_total_witness :
    recoverSession none ⟨some ⟨"a", "a", "", none, []⟩, none, [], 0⟩
      = (some ⟨"a", "a", "", none, []⟩, ⟨some ⟨"a", "a", "", none, []⟩, none, [], 0⟩, [])
    ∧ recoverSession none ⟨none, none, [], 0⟩ = (none, ⟨none, none, [], 0⟩, [])
    ∧ recoverSession none ⟨none, some "corrupt", [], 0⟩
      = (none, ⟨none, some "corrupt", [], 0⟩, [recoverLogMsg ++ msgJsonSyntaxFor "corrupt"])
    ∧ recoverSession none ⟨none, some "\x7b\"url\":\"http://x\"\x7d", [], 0⟩
      = (none, ⟨none, some "\x7b\"url\":\"http://x\"\x7d", [], 0⟩, [])
    ∧ (∃ u, (recoverSession none ⟨none,
        some "\x7b\"url\":\"http://x\",\"token\":\x7b\"access_token\":\"a.!.c\"\x7d\x7d", [], 0⟩).1
          = some u
        ∧ lookupField u.extra "_fromStorage" = some (.bool true)) := by
  have h1 := (C8_recover_session_total none ⟨some ⟨"a", "a", "", none, []⟩, none, [], 0⟩).1
    ⟨"a", "a", "", none, []⟩ rfl
  have h2 := (C8_recover_session_total none ⟨none, none, [], 0⟩).2.1 rfl rfl
  have h3 := (C8_recover_session_total none ⟨none, some "corrupt", [], 0⟩).2.2.1
    "corrupt" rfl rfl (by decide) rfl
  have h4 := (C8_recover_session_total none
      ⟨none, some "\x7b\"url\":\"http://x\"\x7d", [], 0⟩).2.2.2.2.1
    "\x7b\"url\":\"http://x\"\x7d" (.obj [("url", .str "http://x")]) rfl rfl (by decide) rfl
    (by intro hh; exact JValue.noConfusion hh)
    (by intro hh; exact absurd hh.2 (by decide))
  have h5 := (C8_recover_session_total none
      ⟨none, some "\x7b\"url\":\"http://x\",\"token\":\x7b\"access_token\":\"a.!.c\"\x7d\x7d", [], 0⟩).2.2.2.2.2
    "\x7b\"url\":\"http://x\",\"token\":\x7b\"access_token\":\"a.!.c\"\x7d\x7d"
    (.obj [("url", .str "http://x"), ("token", .obj [("access_token", .str "a.!.c")])])
    rfl rfl (by decide) rfl (by intro hh; exact JValue.noConfusion hh) rfl rfl
  exact ⟨h1, h2, h3, h4, ⟨h5.choose, h5.choose_spec.1, h5.choose_spec.2.1⟩⟩

/-- C9 counterexample.  The claim says a present `msg` field always becomes
the re-raised message; for the JSON body with `msg` present but empty the
code's truthiness test skips it and composes the `error: description`
template instead, so the message is not the (empty) `msg` value. -/
theorem C9_empty_msg_counterexample :
    rewriteRequestError (.jsonHTTP 400 "Bad Request" ⟨some "", some "invalid_grant", some "x"⟩)
      = .jsonHTTP 400 "invalid_grant: x" ⟨some "", some "invalid_grant", some "x"⟩
    ∧ (rewriteRequestError (.jsonHTTP 400 "Bad Request"
        ⟨some "", some "invalid_grant", some "x"⟩)).message ≠ "" :=
  ⟨rfl, by decide⟩

/-- C9 (amended).  For a JSON-shaped structured error the re-raised message
equals the `msg` field when present and non-empty (truthy); otherwise it is
`error ++ ": " ++ error_description` when `error` is present and non-empty,
an absent description interpolating as the text `undefined`; otherwise the
message is left as Transport produced it.  All non-JSON errors are re-raised
unchanged and no error is ever swallowed; the claim's concrete scenario
surfaces as `invalid_grant: Invalid credentials`. -/
theorem C9_error_rewrite_amended (s : Nat) (m : String) (j : ErrorJSON) :
    (truthyStr j.msg = true → ∀ v, j.msg = some v →
      rewriteRequestError (.jsonHTTP s m j) = .jsonHTTP s v j)
    ∧ (truthyStr j.msg = false → truthyStr j.error = true → ∀ v, j.error = some v →
        rewriteRequestError (.jsonHTTP s m j)
          = .jsonHTTP s (v ++ ": " ++ (match j.error_description with
              | some d => d
              | none => "undefined")) j)
    ∧ (truthyStr j.msg = false → truthyStr j.error = false →
        rewriteRequestError (.jsonHTTP s m j) = .jsonHTTP s m j)
    ∧ (∀ (st2 : Nat) (m2 d2 : String),
        rewriteRequestError (.textHTTP st2 m2 d2) = .textHTTP st2 m2 d2)
    ∧ (∀ (st2 : Nat) (m2 : String), rewriteRequestError (.http st2 m2) = .http st2 m2)
    ∧ (∀ m2 : String, rewriteRequestError (.generic m2) = .generic m2)
    ∧ (∀ e : RequestError, authedRequestOutcome (.error e) = .error (rewriteRequestError e))
    ∧ authedRequestOutcome (.error (.jsonHTTP 401 "Unauthorized"
        ⟨none, some "invalid_grant", some "Invalid credentials"⟩))
      = .error (.jsonHTTP 401 "invalid_grant: Invalid credentials"
          ⟨none, some "invalid_grant", some "Invalid credentials"⟩) := by
  refine ⟨?_, ?_, ?_, fun _ _ _ => rfl, fun _ _ => rfl, fun _ => rfl, fun _ => rfl, rfl⟩
  · intro hmsg v hv
    simp only [rewriteRequestError]
    rw [if_pos hmsg, hv]
  · intro hmsg herr v hv
    simp only [rewriteRequestError]
    rw [if_neg (by simp [hmsg]), if_pos herr, hv]
  · intro hmsg herr
    simp only [rewriteRequestError]
    rw [if_neg (by simp [hmsg]), if_neg (by simp [herr])]

/-- C9 witness: a truthy `msg` wins; with no `msg` the template composes; a
plain HTTP error passes through untouched. -/
theorem C9_error_rewrite_amended_witness :
    rewriteRequestError (.jsonHTTP 400 "Bad Request" ⟨some "No user", none, none⟩)
      = .jsonHTTP 400 "No user" ⟨some "No user", none, none⟩
    ∧ rewriteRequestError (.jsonHTTP 400 "Bad Request" ⟨none, some "invalid_grant", none⟩)
      = .jsonHTTP 400 "invalid_grant: undefined" ⟨none, some "invalid_grant", none⟩
    ∧ rewriteRequestError (.http 500 "Internal Server Error") = .http 500 "Internal Server Error" :=
  ⟨(C9_error_rewrite_amended 400 "Bad Request" ⟨some "No user", none, none⟩).1 (by decide)
      "No user" rfl,
   (C9_error_rewrite_amended 400 "Bad Request" ⟨none, some "invalid_grant", none⟩).2.1
      (by decide) (by decide) "invalid_grant" rfl,
   (C9_error_rewrite_amended 500 "x" ⟨none, none, none⟩).2.2.2.2.1 500 "Internal Server Error"⟩

end GoTrueJS
